import Mathlib

/-!
# Verification of the eat-api extraction-and-normalization engine

A shallow embedding, in Lean 4, of the core of the `eat-api` repository
(`src/main.py`, `src/menu_parser.py`, `src/translate.py`), together with
proofs and refutations of a fixed list of specification claims.

Conventions used throughout this development:

* Calendar dates are represented by their proleptic-Gregorian ordinal
  ("Rata Die"): day 1 is 0001-01-01, which is a Monday.  This mirrors
  CPython's `datetime`, whose `date.toordinal` uses the same numbering.
* Python `dict`s are represented by association lists (`PyDict`) with
  Python's semantics: insertion preserves first-insertion order and
  overwrites values in place.
* Python machine floats that only carry parsed decimal literals are
  represented by `ℚ` (no claim in scope depends on float rounding).
* Strings are manipulated through their underlying `List Char`, so that
  every definition evaluates by kernel reduction.
* Code of the repository that is not part of the given sources
  (`entities.py`, `utils/util.py`, the `IPPBistroMenuParser` class) is
  modelled from the specification; each such definition is marked
  `Modelled from the spec:` in its doc string.
-/

namespace EatApi

/-! ## Date arithmetic (CPython `datetime` semantics)

`MenuParser.get_date` delegates to
`datetime.datetime.strptime("%d-W%d-%d" % ..., "%G-W%V-%u")`, i.e. to the
ISO-8601 week-date rule of the Python standard library, and the claims
compare its output against `date.isocalendar()`.  The following
definitions reproduce the arithmetic of CPython's `datetime` module on
ordinals. -/

/-- Days in all years strictly before Gregorian year `y`; equals
`datetime.date(y, 1, 1).toordinal() - 1` (CPython `_days_before_year`). -/
def daysBeforeYear (y : Int) : Int :=
  365 * (y - 1) + (y - 1) / 4 - (y - 1) / 100 + (y - 1) / 400

/-- Gregorian leap-year test (CPython `_is_leap`). -/
def isLeapYear (y : Int) : Bool :=
  y % 4 = 0 && (y % 100 ≠ 0 || y % 400 = 0)

/-- Day count of month `m` (1-12) in year `y` (CPython `_days_in_month`). -/
def daysInMonth (y m : Int) : Int :=
  if m = 2 then (if isLeapYear y then 29 else 28)
  else if m = 4 ∨ m = 6 ∨ m = 9 ∨ m = 11 then 30
  else 31

/-- Days in year `y` strictly before month `m` (CPython `_days_before_month`). -/
def daysBeforeMonth (y : Int) : Nat → Int
  | 0 => 0
  | 1 => 0
  | m + 1 => daysBeforeMonth y m + daysInMonth y m

/-- `datetime.date(y, m, d).toordinal()` (CPython `_ymd2ord`). -/
def toOrdinal (y : Int) (m : Nat) (d : Int) : Int :=
  daysBeforeYear y + daysBeforeMonth y m + d

/-- The Gregorian year containing ordinal `rd`; the year-extraction part
of CPython's `_ord2ymd` (successive divmods by 146097 / 36524 / 1461 /
365, with the two end-of-cycle corrections). -/
def yearOfOrdinal (rd : Int) : Int :=
  let n := rd - 1
  let n400 := n / 146097
  let r400 := n % 146097
  let n100 := r400 / 36524
  let r100 := r400 % 36524
  let n4 := r100 / 1461
  let r4 := r100 % 1461
  let n1 := r4 / 365
  if n1 = 4 ∨ n100 = 4 then
    n400 * 400 + n100 * 100 + n4 * 4 + n1
  else
    n400 * 400 + n100 * 100 + n4 * 4 + n1 + 1

/-- `date.weekday()`: Monday = 0 … Sunday = 6.  Ordinal 1 is a Monday. -/
def pyWeekday (rd : Int) : Int := (rd - 1) % 7

/-- `date.isoweekday()`: Monday = 1 … Sunday = 7. -/
def isoWeekday (rd : Int) : Int := (rd - 1) % 7 + 1

/-- Ordinal of the Monday of ISO week 1 of year `y`
(CPython `_isoweek1monday`). -/
def week1Monday (y : Int) : Int :=
  let firstday := daysBeforeYear y + 1
  let firstweekday := (firstday + 6) % 7
  let w := firstday - firstweekday
  if firstweekday > 3 then w + 7 else w

/-- `MenuParser.get_date(year, week_number, day)`: the ordinal of the ISO
week date `(year, week_number, day)`, as computed by
`datetime.datetime.strptime(..., "%G-W%V-%u")` (CPython
`_calc_julian_from_V`): the Monday of ISO week 1 plus the week/day
offsets. -/
def get_date (year week_number day : Int) : Int :=
  week1Monday year + 7 * (week_number - 1) + (day - 1)

/-- `date.isocalendar()` of the date with ordinal `rd`
(CPython `date.isocalendar`). -/
def isocalendar (rd : Int) : Int × Int × Int :=
  let year := yearOfOrdinal rd
  let w1m := week1Monday year
  let week := (rd - w1m) / 7
  let day := (rd - w1m) % 7
  if week < 0 then
    let year' := year - 1
    let w1m' := week1Monday year'
    (year', (rd - w1m') / 7 + 1, (rd - w1m') % 7 + 1)
  else if week ≥ 52 ∧ rd ≥ week1Monday (year + 1) then
    (year + 1, 1, day + 1)
  else
    (year, week + 1, day + 1)

/-- Number of ISO weeks (52 or 53) in ISO year `y`. -/
def numIsoWeeks (y : Int) : Int :=
  (week1Monday (y + 1) - week1Monday y) / 7

/-! ## Python semantics utilities -/

instance {ε α : Type} [DecidableEq ε] [DecidableEq α] : DecidableEq (Except ε α) := fun x y =>
  match x, y with
  | .ok a, .ok b => if h : a = b then isTrue (by rw [h]) else isFalse (by simp [h])
  | .error a, .error b => if h : a = b then isTrue (by rw [h]) else isFalse (by simp [h])
  | .ok _, .error _ => isFalse (by simp)
  | .error _, .ok _ => isFalse (by simp)

/-- ASCII whitespace recognised by Python's `str.strip` / `str.isspace`
(we do not model the further Unicode whitespace code points, which never
occur in the sources' inputs of interest). -/
def pyIsSpaceChar (c : Char) : Bool :=
  c = ' ' || c = '\t' || c = '\n' || c = '\r' || c = '\x0b' || c = '\x0c'

/-- Python `str.strip()` on the character list of a string. -/
def pyStrip (l : List Char) : List Char :=
  ((l.dropWhile pyIsSpaceChar).reverse.dropWhile pyIsSpaceChar).reverse

/-- Python `str.isspace()`: non-empty and all whitespace. -/
def pyIsSpace (l : List Char) : Bool :=
  !l.isEmpty && l.all pyIsSpaceChar

/-- Python `str.split(sep)` for a one-character separator: every
occurrence splits, empty parts are kept (`"".split(",") == [""]`). -/
def pySplitChar (sep : Char) : List Char → List (List Char)
  | [] => [[]]
  | c :: rest =>
    match pySplitChar sep rest with
    | [] => [[]]
    | h :: t => if c = sep then [] :: h :: t else (c :: h) :: t

/-- Python `dict` assignment `d[k] = v`: overwrite in place, else append. -/
def pyInsert {α β : Type} [DecidableEq α] : List (α × β) → α → β → List (α × β)
  | [], k, v => [(k, v)]
  | (k', v') :: rest, k, v =>
    if k' = k then (k', v) :: rest else (k', v') :: pyInsert rest k v

/-- Python `dict.update`: insert all entries of `e` into `d` in order. -/
def pyUpdate {α β : Type} [DecidableEq α] (d e : List (α × β)) : List (α × β) :=
  e.foldl (fun acc kv => pyInsert acc kv.1 kv.2) d

/-- Python `dict.get(k)` as an option. -/
def pyGet {α β : Type} [DecidableEq α] (d : List (α × β)) (k : α) : Option β :=
  (d.find? (fun kv => kv.1 = k)).map (·.2)

/-- Python `in` for `dict` keys. -/
def pyHasKey {α β : Type} [DecidableEq α] (d : List (α × β)) (k : α) : Bool :=
  d.any (fun kv => kv.1 = k)

/-- The keys of an embedded Python `dict`, in order. -/
def pyKeys {α β : Type} (d : List (α × β)) : List α := d.map (·.1)

/-- Python substring test `needle in haystack` (contiguous occurrence). -/
def pyInStr : List Char → List Char → Bool
  | _, [] => false
  | needle, c :: rest => needle.isPrefixOf (c :: rest) || pyInStr needle rest

/-- `needle in haystack` including the empty needle, as in Python. -/
def pyContains (needle haystack : List Char) : Bool :=
  needle.isEmpty || pyInStr needle haystack

/-- Python slice index clamping: `s[i:j]` for `Int` indices on a list of
length `n` (negative indices count from the end, everything clamps). -/
def pySliceIndex (n : Nat) (i : Int) : Nat :=
  if i < 0 then (max (n + i) 0).toNat else min i.toNat n

/-- Python slice `s[i:j]`. -/
def pySlice {α : Type} (l : List α) (i j : Int) : List α :=
  let a := pySliceIndex l.length i
  let b := pySliceIndex l.length j
  (l.take b).drop a

/-- Python slice `s[i:]`. -/
def pySliceFrom {α : Type} (l : List α) (i : Int) : List α :=
  (l.drop (pySliceIndex l.length i))

/-- Python slice `s[:j]`. -/
def pySliceTo {α : Type} (l : List α) (j : Int) : List α :=
  l.take (pySliceIndex l.length j)

/-- Python `str.lower()` restricted to ASCII (the sausage terms compared
in the sources are ASCII apart from `ü`, which `lower` leaves alone). -/
def pyLowerChar (c : Char) : Char :=
  if 'A' ≤ c ∧ c ≤ 'Z' then Char.ofNat (c.toNat + 32) else c

def pyLower (l : List Char) : List Char := l.map pyLowerChar

/-! ## Labels (`entities.Label`)

`entities.py` is not among the given sources; the catalog below lists
exactly the `Label` members referenced by `menu_parser.py`. -/

/-- Modelled from the spec: the fixed `entities.Label` catalog
(allergens, diet classes, origin marks); only the members referenced by
`menu_parser.py` are needed. -/
inductive Label where
  | BAVARIA | MSC | DYESTUFF | PRESERVATIVES | ANTIOXIDANTS | FLAVOR_ENHANCER
  | SULPHURS | WAXED | PHOSPHATES | SWEETENERS | PHENYLALANINE
  | COCOA_CONTAINING_GREASE | GELATIN | ALCOHOL | VEGETARIAN | VEGAN
  | PORK | BEEF | VEAL | GARLIC | CHICKEN_EGGS | PEANUTS | FISH | GLUTEN
  | WHEAT | RYE | BARLEY | OAT | SPELT | SHELLFISH | LUPIN | MILK | LACTOSE
  | ALMONDS | HAZELNUTS | WALNUTS | CASHEWS | PISTACHIOS | SESAME | MUSTARD
  | CELERY | SOY | SULFITES | MOLLUSCS | HYBRIDS | SHELL_FRUITS | PECAN
  | MACADAMIA | POULTRY | LAMB | WILD_MEAT | MEAT
deriving DecidableEq, Repr

/-- Modelled from the spec: `entities.Label.add_supertype_labels` closes a
label set under the documented "implies" relation; the single implication
the specification documents is VEGAN → VEGETARIAN. -/
def add_supertype_labels (labels : Finset Label) : Finset Label :=
  if Label.VEGAN ∈ labels then insert Label.VEGETARIAN labels else labels

/-- Lookup in a `str → set[Label]` table, `dict.get(key, set())`. -/
def labelTableGet (table : List (String × Finset Label)) (key : String) : Finset Label :=
  match table.find? (fun kv => kv.1 = key) with
  | some kv => kv.2
  | none => ∅

/-- `StudentenwerkMenuParser._label_subclasses`. -/
def studentenwerkLabelSubclasses : List (String × Finset Label) :=
  [("GQB", {Label.BAVARIA}), ("MSC", {Label.MSC}), ("1", {Label.DYESTUFF}),
   ("2", {Label.PRESERVATIVES}), ("3", {Label.ANTIOXIDANTS}), ("4", {Label.FLAVOR_ENHANCER}),
   ("5", {Label.SULPHURS}), ("6", {Label.DYESTUFF}), ("7", {Label.WAXED}),
   ("8", {Label.PHOSPHATES}), ("9", {Label.SWEETENERS}), ("10", {Label.PHENYLALANINE}),
   ("11", {Label.SWEETENERS}), ("13", {Label.COCOA_CONTAINING_GREASE}), ("14", {Label.GELATIN}),
   ("99", {Label.ALCOHOL}), ("f", {Label.VEGETARIAN}), ("v", {Label.VEGAN}),
   ("S", {Label.PORK}), ("R", {Label.BEEF}), ("K", {Label.VEAL}), ("Kn", {Label.GARLIC}),
   ("Ei", {Label.CHICKEN_EGGS}), ("En", {Label.PEANUTS}), ("Fi", {Label.FISH}),
   ("Gl", {Label.GLUTEN}), ("GlW", {Label.WHEAT}), ("GlR", {Label.RYE}),
   ("GlG", {Label.BARLEY}), ("GlH", {Label.OAT}), ("GlD", {Label.SPELT}),
   ("Kr", {Label.SHELLFISH}), ("Lu", {Label.LUPIN}), ("Mi", {Label.MILK, Label.LACTOSE}),
   ("Sc", {Label.SHELLFISH}), ("ScM", {Label.ALMONDS}), ("ScH", {Label.HAZELNUTS}),
   ("ScW", {Label.WALNUTS}), ("ScC", {Label.CASHEWS}), ("ScP", {Label.PISTACHIOS}),
   ("Se", {Label.SESAME}), ("Sf", {Label.MUSTARD}), ("Sl", {Label.CELERY}),
   ("So", {Label.SOY}), ("Sw", {Label.SULPHURS, Label.SULFITES}), ("Wt", {Label.MOLLUSCS})]

/-- `FMIBistroMenuParser._label_subclasses`. -/
def fmiLabelSubclasses : List (String × Finset Label) :=
  [("a", {Label.GLUTEN}), ("aW", {Label.WHEAT}), ("aR", {Label.RYE}),
   ("aG", {Label.BARLEY}), ("aH", {Label.OAT}), ("aD", {Label.SPELT}),
   ("aHy", {Label.HYBRIDS}), ("b", {Label.SHELLFISH}), ("c", {Label.CHICKEN_EGGS}),
   ("d", {Label.FISH}), ("e", {Label.PEANUTS}), ("f", {Label.SOY}), ("g", {Label.MILK}),
   ("u", {Label.LACTOSE}), ("h", {Label.SHELL_FRUITS}), ("hMn", {Label.ALMONDS}),
   ("hH", {Label.HAZELNUTS}), ("hW", {Label.WALNUTS}), ("hK", {Label.CASHEWS}),
   ("hPe", {Label.PECAN}), ("hPi", {Label.PISTACHIOS}), ("hQ", {Label.MACADAMIA}),
   ("i", {Label.CELERY}), ("j", {Label.MUSTARD}), ("k", {Label.SESAME}),
   ("l", {Label.SULFITES, Label.SULPHURS}), ("m", {Label.LUPIN}), ("n", {Label.MOLLUSCS})]

/-- `MedizinerMensaMenuParser._label_subclasses`. -/
def medizinerLabelSubclasses : List (String × Finset Label) :=
  [("1", {Label.DYESTUFF}), ("2", {Label.PRESERVATIVES}), ("3", {Label.ANTIOXIDANTS}),
   ("4", {Label.FLAVOR_ENHANCER}), ("5", {Label.SULPHURS}), ("6", {Label.DYESTUFF}),
   ("7", {Label.WAXED}), ("8", {Label.PHOSPHATES}), ("9", {Label.SWEETENERS}),
   ("A", {Label.ALCOHOL}), ("B", {Label.GLUTEN}), ("C", {Label.SHELLFISH}),
   ("E", {Label.FISH}), ("F", {Label.FISH}), ("G", {Label.POULTRY}), ("H", {Label.PEANUTS}),
   ("K", {Label.VEAL}), ("L", {Label.LAMB}), ("M", {Label.SOY}),
   ("N", {Label.MILK, Label.LACTOSE}), ("O", {Label.SHELL_FRUITS}), ("P", {Label.CELERY}),
   ("R", {Label.BEEF}), ("S", {Label.PORK}), ("T", {Label.MUSTARD}), ("U", {Label.SESAME}),
   ("V", {Label.SULPHURS, Label.SULFITES}), ("W", {Label.WILD_MEAT}), ("X", {Label.LUPIN}),
   ("Y", {Label.CHICKEN_EGGS}), ("Z", {Label.MOLLUSCS})]

/-- `StraubingMensaMenuParser._label_subclasses`. -/
def straubingLabelSubclasses : List (String × Finset Label) :=
  [("1", {Label.DYESTUFF}), ("2", {Label.PRESERVATIVES}), ("3", {Label.ANTIOXIDANTS}),
   ("4", {Label.FLAVOR_ENHANCER}), ("5", {Label.SULPHURS}), ("6", {Label.DYESTUFF}),
   ("7", {Label.WAXED}), ("8", {Label.PHOSPHATES}), ("9", {Label.SWEETENERS}),
   ("10", {Label.PHENYLALANINE}), ("16", {Label.SULFITES}), ("17", {Label.PHENYLALANINE}),
   ("AA", {Label.WHEAT}), ("AB", {Label.RYE}), ("AC", {Label.BARLEY}), ("AD", {Label.OAT}),
   ("AE", {Label.SPELT}), ("AF", {Label.GLUTEN}), ("B", {Label.SHELLFISH}),
   ("C", {Label.CHICKEN_EGGS}), ("D", {Label.FISH}), ("E", {Label.PEANUTS}),
   ("F", {Label.SOY}), ("G", {Label.MILK}), ("HA", {Label.ALMONDS}), ("HB", {Label.HAZELNUTS}),
   ("HC", {Label.WALNUTS}), ("HD", {Label.CASHEWS}), ("HE", {Label.PECAN}),
   ("HG", {Label.PISTACHIOS}), ("HH", {Label.MACADAMIA}), ("I", {Label.CELERY}),
   ("J", {Label.MUSTARD}), ("K", {Label.SESAME}), ("L", {Label.SULPHURS, Label.SULFITES}),
   ("M", {Label.LUPIN}), ("N", {Label.MOLLUSCS})]

/-- `MenuParser._parse_label(labels_str)`: strip, split on commas, strip
each token, keep tokens that are not whitespace-only, union the table
entries (`dict.get(stripped, set())`), then add supertype labels.  Every
step is a total operation in Python, so the embedding is a total
function: the resolver cannot raise. -/
def parse_label (table : List (String × Finset Label)) (labels_str : String) : Finset Label :=
  let split_values := pySplitChar ',' (pyStrip labels_str.data)
  let labels := split_values.foldl
    (fun acc value =>
      let stripped := pyStrip value
      if pyIsSpace stripped then acc else acc ∪ labelTableGet table (String.mk stripped))
    ∅
  add_supertype_labels labels

/-- The resolution procedure in the words of the specification: split on
commas, trim, discard blank/whitespace-only tokens, union-lookup each
remaining token, unknown codes contributing nothing. -/
def resolveSpec (table : List (String × Finset Label)) (labels_str : String) : Finset Label :=
  (((pySplitChar ',' (pyStrip labels_str.data)).map pyStrip).filter
      (fun t => !t.isEmpty)).foldl
    (fun acc t => acc ∪ labelTableGet table (String.mk t)) ∅

/-! ## Canteens and the domain value types

`entities.Canteen`, `Price`, `Prices`, `Dish` and `Menu` live in
`entities.py`, which is not among the given sources; they are modelled
from the specification, restricted to the members referenced by
`menu_parser.py` and `main.py`. -/

/-- Modelled from the spec: the static `entities.Canteen` catalog — the
canteen identities referenced by the parser classes of
`menu_parser.py` plus `IPP_BISTRO` (the support of the
`IPPBistroMenuParser` registered in `main.py`, whose class is also not
among the given sources). -/
inductive Canteen where
  | MENSA_ARCISSTR | MENSA_GARCHING | MENSA_LEOPOLDSTR | MENSA_LOTHSTR
  | MENSA_MARTINSRIED | MENSA_PASING | MENSA_WEIHENSTEPHAN
  | STUBISTRO_ARCISSTR | STUBISTRO_GOETHESTR | STUBISTRO_BUTENANDSTR
  | STUBISTRO_ROSENHEIM | STUBISTRO_SCHELLINGSTR | STUBISTRO_MARTINSRIED
  | STUCAFE_ADALBERTSTR | STUCAFE_AKADEMIE_WEIHENSTEPHAN
  | STUCAFE_WEIHENSTEPHAN_MAXIMUS | STUCAFE_BOLTZMANNSTR
  | STUCAFE_CONNOLLYSTR | STUCAFE_GARCHING | STUCAFE_KARLSTR | STUCAFE_PASING
  | FMI_BISTRO | MEDIZINER_MENSA | MENSA_STRAUBING
  | MENSA_BILDUNGSCAMPUS_HEILBRONN | IPP_BISTRO
deriving DecidableEq, Repr, Fintype

/-- Modelled from the spec: `entities.Price` — a base amount, an optional
per-unit amount and a unit string.  Decimal amounts are represented
exactly in `ℚ`. -/
structure Price where
  base_price : ℚ := 0
  price_per_unit : Option ℚ := none
  unit : Option String := none
deriving DecidableEq, Repr

/-- Modelled from the spec: `entities.Prices` — the three customer
classes, always represented together. -/
structure Prices where
  students : Price := {}
  staff : Price := {}
  guests : Price := {}
deriving DecidableEq, Repr

/-- Modelled from the spec: `entities.Dish` — name, prices, a label set
and a category/type string. -/
structure Dish where
  name : String
  prices : Prices
  labels : Finset Label
  dish_type : String
deriving DecidableEq

/-- Modelled from the spec: `entities.Menu` — one date (as an ordinal)
and an ordered dish list. -/
structure Menu where
  menu_date : Int
  dishes : List Dish
deriving DecidableEq

/-- Modelled from the spec: `entities.Menu.remove_duplicates` —
deduplicate dishes with identical `(name, dish_type)` pairs, keeping the
first occurrence. -/
def Menu.remove_duplicates (m : Menu) : Menu :=
  { m with
    dishes := m.dishes.foldl
      (fun acc d =>
        if acc.any (fun d' => d'.name = d.name ∧ d'.dish_type = d.dish_type) then acc
        else acc ++ [d])
      [] }

/-- Modelled from the spec:
`entities.Week.get_non_weekend_days_for_calendar_week` — the five weekday
dates (Monday-Friday) of a given ISO `(year, week)`. -/
def get_non_weekend_days_for_calendar_week (year week : Int) : List Int :=
  [get_date year week 1, get_date year week 2, get_date year week 3,
   get_date year week 4, get_date year week 5]

/-! ## Studentenwerk price model (`StudentenwerkMenuParser`) -/

/-- `StudentenwerkMenuParser.SelfServiceBasePriceType` (base-price tiers). -/
inductive SelfServiceBasePriceType where
  | VEGETARIAN_SOUP_STEW | SAUSAGE | MEAT | FISH | PIZZA_VEGGIE | PIZZA_MEAT
deriving DecidableEq, Repr

/-- The `(students, staff, guests)` base-price triplet of each tier. -/
def SelfServiceBasePriceType.price : SelfServiceBasePriceType → ℚ × ℚ × ℚ
  | .VEGETARIAN_SOUP_STEW => (0, 0, 0)
  | .SAUSAGE => (1/2, 1/2, 1/2)
  | .MEAT => (1, 1, 1)
  | .FISH => (3/2, 3/2, 3/2)
  | .PIZZA_VEGGIE => (9/2, 5, 6)
  | .PIZZA_MEAT => (5, 11/2, 13/2)

/-- `StudentenwerkMenuParser.SelfServicePricePerUnitType`. -/
inductive SelfServicePricePerUnitType where
  | CLASSIC | SOUP_STEW | PIZZA
deriving DecidableEq, Repr

def SelfServicePricePerUnitType.students : SelfServicePricePerUnitType → ℚ
  | .CLASSIC => 9/10
  | .SOUP_STEW => 33/100
  | .PIZZA => 0

def SelfServicePricePerUnitType.staff : SelfServicePricePerUnitType → ℚ
  | .CLASSIC => 23/20
  | .SOUP_STEW => 23/20
  | .PIZZA => 0

def SelfServicePricePerUnitType.guests : SelfServicePricePerUnitType → ℚ
  | .CLASSIC => 8/5
  | .SOUP_STEW => 8/5
  | .PIZZA => 0

def SelfServicePricePerUnitType.unit (_ : SelfServicePricePerUnitType) : String := "100g"

/-- `StudentenwerkMenuParser.__get_self_service_prices`. -/
def get_self_service_prices (base : SelfServiceBasePriceType)
    (ppu : SelfServicePricePerUnitType) : Prices :=
  { students := { base_price := base.price.1, price_per_unit := some ppu.students,
                  unit := some ppu.unit }
    staff := { base_price := base.price.2.1, price_per_unit := some ppu.staff,
               unit := some ppu.unit }
    guests := { base_price := base.price.2.2, price_per_unit := some ppu.guests,
                unit := some ppu.unit } }

/-- Shorthand for a flat `Price(x)` literal. -/
def flatPrice (x : ℚ) : Price := { base_price := x }

/-- `StudentenwerkMenuParser.prices_mensa_weihenstephan_mensa_lothstrasse`. -/
def pricesMensaWeihenstephanMensaLothstrasse : List (String × Prices) :=
  [("StudiTopf", ⟨flatPrice 1, flatPrice (29/10), flatPrice (39/10)⟩),
   ("Gericht 1", ⟨flatPrice (59/20), flatPrice (39/10), flatPrice (51/10)⟩),
   ("Gericht 2", ⟨flatPrice (67/20), flatPrice (23/5), flatPrice (59/10)⟩),
   ("Gericht 3", ⟨flatPrice (73/20), flatPrice (99/20), flatPrice (63/10)⟩),
   ("Gericht 4", ⟨flatPrice (83/20), flatPrice (53/10), flatPrice (67/10)⟩),
   ("Gericht 5", ⟨flatPrice (93/20), flatPrice (113/20), flatPrice (71/10)⟩),
   ("Gericht 6", ⟨flatPrice (21/4), flatPrice (25/4), flatPrice (39/5)⟩),
   ("Beilage 1", ⟨flatPrice (4/5), flatPrice (21/20), flatPrice (3/2)⟩),
   ("Brot", ⟨flatPrice (4/5), flatPrice (21/20), flatPrice (3/2)⟩),
   ("Obst", ⟨flatPrice (4/5), flatPrice (21/20), flatPrice (3/2)⟩),
   ("Beilage 2", ⟨flatPrice (9/10), flatPrice (5/4), flatPrice (17/10)⟩),
   ("Beilage 3", ⟨flatPrice (11/10), flatPrice (29/20), flatPrice 2⟩),
   ("Beilage 4", ⟨flatPrice (8/5), flatPrice (9/5), flatPrice (13/5)⟩),
   ("Pizza - Veggie", ⟨flatPrice (9/2), flatPrice 5, flatPrice 6⟩),
   ("Pizza - Wurst. Schinken. Fisch. Meeresfrüchte",
     ⟨flatPrice 5, flatPrice (11/2), flatPrice (13/2)⟩),
   ("Salatbuffet",
     ⟨{ base_price := 0, price_per_unit := some (9/10), unit := some "100g" },
      { base_price := 0, price_per_unit := some (23/20), unit := some "100g" },
      { base_price := 0, price_per_unit := some (8/5), unit := some "100g" }⟩)]

/-- The tier computation of `StudentenwerkMenuParser.__get_price` for the
non-bypass canteens: the successive reassignments of
`price_per_unit_type` and `base_price_type` (lines 210-231), returning
the final pair passed to `__get_self_service_prices`. -/
def selfServiceClassification (dish : String × String × String × String × String)
    (dish_name : String) : SelfServiceBasePriceType × SelfServicePricePerUnitType :=
  let price_per_unit_type : SelfServicePricePerUnitType :=
    if dish.1 = "Studitopf" then .SOUP_STEW else .CLASSIC
  let base_price_type : SelfServiceBasePriceType :=
    if dish.1 ≠ "Studitopf" ∧ dish.2.2.2.2 = "0" then
      if pyContains "Fi".data dish.2.2.1.data then .FISH
      else if pyContains "wurst".data (pyLower dish_name.data)
          ∨ pyContains "würstchen".data (pyLower dish_name.data) then .SAUSAGE
      else .MEAT
    else .VEGETARIAN_SOUP_STEW
  if dish.1 = "Pizza" then
    (if dish.2.2.2.2 = "0" then .PIZZA_MEAT else .PIZZA_VEGGIE, .PIZZA)
  else
    (base_price_type, price_per_unit_type)

/-- `StudentenwerkMenuParser.__get_price`. -/
def get_price (canteen : Canteen) (dish : String × String × String × String × String)
    (dish_name : String) : Prices :=
  if canteen = .MENSA_WEIHENSTEPHAN ∨ canteen = .MENSA_LOTHSTR then
    match pricesMensaWeihenstephanMensaLothstrasse.find? (fun kv => kv.1 = dish.1) with
    | some kv => kv.2
    | none => {}
  else
    let c := selfServiceClassification dish dish_name
    get_self_service_prices c.1 c.2

/-- The classification procedure exactly as claim C5 words it: in order,
the meatless flag (non-`"0"` → vegetarian/soup), fish-label presence
(`"Fi"` in the allergen marker) → FISH, sausage substring → SAUSAGE,
otherwise MEAT. -/
def claimedBaseType (dish : String × String × String × String × String)
    (dish_name : String) : SelfServiceBasePriceType :=
  if dish.2.2.2.2 ≠ "0" then .VEGETARIAN_SOUP_STEW
  else if pyContains "Fi".data dish.2.2.1.data then .FISH
  else if pyContains "wurst".data (pyLower dish_name.data)
      ∨ pyContains "würstchen".data (pyLower dish_name.data) then .SAUSAGE
  else .MEAT

/-! ## The dispatcher (`main.get_menu_parsing_strategy`) -/

/-- The parser strategy classes registered in `main.py`. -/
inductive ParserClass where
  | StudentenwerkMenuParser | FMIBistroMenuParser | IPPBistroMenuParser
  | MedizinerMensaMenuParser | StraubingMensaMenuParser
  | MensaBildungscampusHeilbronnParser
deriving DecidableEq, Repr, Fintype

/-- The declared support set (`canteens` class attribute) of each parser
class.  The set of `IPPBistroMenuParser` is modelled from the spec (its
class is not among the given sources): every parser declares the canteen
identities it supports, and IPP_BISTRO appears in no other parser. -/
def ParserClass.canteens : ParserClass → List Canteen
  | .StudentenwerkMenuParser =>
    [.MENSA_ARCISSTR, .MENSA_GARCHING, .MENSA_LEOPOLDSTR, .MENSA_LOTHSTR,
     .MENSA_MARTINSRIED, .MENSA_PASING, .MENSA_WEIHENSTEPHAN,
     .STUBISTRO_ARCISSTR, .STUBISTRO_GOETHESTR, .STUBISTRO_BUTENANDSTR,
     .STUBISTRO_ROSENHEIM, .STUBISTRO_SCHELLINGSTR, .STUBISTRO_MARTINSRIED,
     .STUCAFE_ADALBERTSTR, .STUCAFE_AKADEMIE_WEIHENSTEPHAN,
     .STUCAFE_WEIHENSTEPHAN_MAXIMUS, .STUCAFE_BOLTZMANNSTR,
     .STUCAFE_CONNOLLYSTR, .STUCAFE_GARCHING, .STUCAFE_KARLSTR, .STUCAFE_PASING]
  | .FMIBistroMenuParser => [.FMI_BISTRO]
  | .IPPBistroMenuParser => [.IPP_BISTRO]
  | .MedizinerMensaMenuParser => [.MEDIZINER_MENSA]
  | .StraubingMensaMenuParser => [.MENSA_STRAUBING]
  | .MensaBildungscampusHeilbronnParser => [.MENSA_BILDUNGSCAMPUS_HEILBRONN]

/-- The `parsers` set literal of `get_menu_parsing_strategy`, in source
order.  CPython iterates a `set` in an unspecified order; since the
support sets are pairwise disjoint (proved in the claim's theorem via its
uniqueness conjunct), the first match is independent of that order. -/
def parserRegistry : List ParserClass :=
  [.StudentenwerkMenuParser, .FMIBistroMenuParser, .IPPBistroMenuParser,
   .MedizinerMensaMenuParser, .StraubingMensaMenuParser,
   .MensaBildungscampusHeilbronnParser]

/-- `main.get_menu_parsing_strategy`: the first registered parser class
whose declared support set contains the canteen. -/
def get_menu_parsing_strategy (canteen : Canteen) : Option ParserClass :=
  parserRegistry.find? (fun p => p.canteens.contains canteen)

/-- The dispatch step of `main.main` (lines 99-101): a missing parser is
the hard error `sys.exit("Canteen parser not found")`. -/
def mainDispatch (canteen : Canteen) : Except String ParserClass :=
  match get_menu_parsing_strategy canteen with
  | some p => .ok p
  | none => .error "Canteen parser not found"

/-! ## The Studentenwerk page loop (`StudentenwerkMenuParser.parse`) -/

/-- The day-block loop of `StudentenwerkMenuParser.parse` (lines
241-252).  The HTML work done per block by `get_menu` (lxml parsing,
XPath extraction) is the per-block collaborator, abstracted as the
already-computed outcome of each block: `Except.error` models an
exception raised while parsing that block's day, `Except.ok none` a
falsy menu, `Except.ok (some m)` a parsed menu.  Crucially the
`try`/`except` of the source wraps the *whole* `for` loop: an exception
ends the loop, the handler prints, and the already-collected `menus`
dict is returned. -/
def studentenwerkParseLoop :
    List (Except String (Option Menu)) → List (Int × Menu) → List (Int × Menu)
  | [], menus => menus
  | b :: bs, menus =>
    match b with
    | .error _ => menus
    | .ok none => studentenwerkParseLoop bs menus
    | .ok (some m) => studentenwerkParseLoop bs (pyInsert menus m.menu_date m)

/-! ## The post-parse sort step (`main.main`, lines 107-109) -/

/-- The sorting pass of `main.main`: before the optional translation and
before any serialization, each menu's dish list is sorted in place by
dish name (`menu.dishes.sort(key=lambda dish: dish.name)`).  Python's
`list.sort` is a stable sort by the key; any stable sort agrees with it,
so the embedding uses Mathlib's stable `List.insertionSort`. -/
def sortMenusStep (menus : List (Int × Menu)) : List (Int × Menu) :=
  menus.map (fun kv =>
    (kv.1, { kv.2 with
      dishes := kv.2.dishes.insertionSort (fun a b => a.name ≤ b.name) }))

/-- `main.main` after a successful parse: the sort pass runs first, and
only then is the translation collaborator applied (line 113), followed by
serialization.  The translation step is the external collaborator
`util.translate_dishes`, abstracted as an arbitrary function. -/
def mainPostParse (menus : List (Int × Menu))
    (translateStep : List (Int × Menu) → List (Int × Menu)) : List (Int × Menu) :=
  translateStep (sortMenusStep menus)

/-! ## The translator (`translate.py`)

The DeepL endpoint is the external collaborator; it is abstracted as an
oracle `api : String → String`.  The cache is a Python `dict`
(`name → translation`), embedded as an association list. -/

/-- A dish object of the canonical JSON shape:
`{name, prices, labels, category}`. -/
structure DishJson where
  name : String
  prices : Prices
  labels : List String
  category : String
deriving DecidableEq

/-- A day object of the canonical JSON shape: `{date, dishes}`. -/
structure DayJson where
  date : String
  dishes : List DishJson
deriving DecidableEq

/-- A week object of the canonical JSON shape:
`{year, week, version?, days}`. -/
structure WeekJson where
  year : Int
  week : Int
  version : Option String
  days : List DayJson
deriving DecidableEq

/-- `Translator.translate`: return the cached translation for `text` if
present; otherwise call the API, cache the result under the exact
untranslated string, and return it. -/
def Translator.translate (api : String → String) (cache : List (String × String))
    (text : String) : String × List (String × String) :=
  match pyGet cache text with
  | some t => (t, cache)
  | none =>
    let r := api text
    (r, pyInsert cache text r)

/-- `Translator.prefetch`: translate and cache every text not already in
the cache.  (The source iterates a Python `set` of the missing texts; the
resulting cache mapping is order-independent, which is all the claims
use.) -/
def Translator.prefetch (api : String → String) (cache : List (String × String))
    (texts : List String) : List (String × String) :=
  texts.foldl
    (fun acc t => if pyHasKey acc t then acc else pyInsert acc t (api t)) cache

/-- The dish-level body of `translate_days`:
`dish["name"] = translator.translate(dish["name"])`, threading the cache. -/
def translateDishStep (api : String → String)
    (acc2 : List DishJson × List (String × String)) (dish : DishJson) :
    List DishJson × List (String × String) :=
  let r := Translator.translate api acc2.2 dish.name
  (acc2.1 ++ [{ dish with name := r.1 }], r.2)

/-- The day-level body of `translate_days`: rewrite all dishes of a day. -/
def translateDayStep (api : String → String)
    (acc : List DayJson × List (String × String)) (day : DayJson) :
    List DayJson × List (String × String) :=
  let inner := day.dishes.foldl (translateDishStep api) ([], acc.2)
  (acc.1 ++ [{ day with dishes := inner.1 }], inner.2)

/-- `translate.translate_days`: prefetch all dish names of the week, then
rewrite each dish's `name` field through `Translator.translate`,
threading the cache. -/
def translate_days (api : String → String) (data : WeekJson)
    (cache : List (String × String)) : WeekJson × List (String × String) :=
  let cache1 := Translator.prefetch api cache
    (data.days.flatMap (fun day => day.dishes.map (·.name)))
  let step := data.days.foldl (translateDayStep api) ([], cache1)
  ({ data with days := step.1 }, step.2)

/-! ## The Straubing CSV parser (`StraubingMensaMenuParser`)

The HTTP fetch is the external collaborator, abstracted as an oracle
`fetch : Int → Option String` mapping a calendar week to the decoded
page content (`none` models `not page.ok`).  `today` is an ordinal. -/

/-- Total digit-string value. -/
def digitsVal (l : List Char) : Nat :=
  l.foldl (fun n c => 10 * n + (c.toNat - 48)) 0

def isAsciiDigit (c : Char) : Bool := '0' ≤ c && c ≤ '9'

/-- Modelled from the spec: `utils.util.parse_date` (module not among the
given sources) parses the CSV/CLI date format `DD.MM.YYYY`
(`datetime.strptime(s, "%d.%m.%Y")`); `none` models the `ValueError` the
Python raises on malformed input. -/
def parse_date_str (s : String) : Option Int :=
  match pySplitChar '.' s.data with
  | [d, m, y] =>
    if d ≠ [] ∧ d.length ≤ 2 ∧ d.all isAsciiDigit ∧
        m ≠ [] ∧ m.length ≤ 2 ∧ m.all isAsciiDigit ∧
        y.length = 4 ∧ y.all isAsciiDigit ∧
        1 ≤ digitsVal m ∧ digitsVal m ≤ 12 ∧
        1 ≤ digitsVal d ∧ (digitsVal d : Int) ≤ daysInMonth (digitsVal y) (digitsVal m) then
      some (toOrdinal (digitsVal y) (digitsVal m) (digitsVal d))
    else none
  | _ => none

/-- Python `float(...)` on a decimal string with `.` separator (the only
shapes the CSV carries); `none` models `ValueError`. -/
def parseFloatDot (l : List Char) : Option ℚ :=
  let l := pyStrip l
  match pySplitChar '.' l with
  | [a] => if a ≠ [] ∧ a.all isAsciiDigit then some ((digitsVal a : ℚ)) else none
  | [a, b] =>
    if (a ≠ [] ∨ b ≠ []) ∧ a.all isAsciiDigit ∧ b.all isAsciiDigit then
      some ((digitsVal a : ℚ) + (digitsVal b : ℚ) / ((10 : ℚ) ^ b.length))
    else none
  | _ => none

/-- Python `str.rfind(c)`: last index of `c`, or `-1`. -/
def pyRFind (c : Char) (l : List Char) : Int :=
  match l.reverse.findIdx? (fun x => x = c) with
  | some i => (l.length : Int) - 1 - (i : Int)
  | none => -1

/-- `StraubingMensaMenuParser.parse_csv`: split the decoded page into
rows and `;`-separated fields, dropping the header row.  (The stdlib
`csv.reader` is the collaborator; the feed carries no quoted fields.) -/
def parse_csv (s : String) : List (List String) :=
  ((pySplitChar '\n' s.data).map (fun line => (pySplitChar ';' line).map String.mk)).drop 1

/-- The `mark_to_label` table of `StraubingMensaMenuParser._marks_to_labels`. -/
def mark_to_label : List (String × List Label) :=
  [("VG", [Label.VEGAN, Label.VEGETARIAN]), ("V", [Label.VEGETARIAN]),
   ("G", [Label.POULTRY]), ("S", [Label.PORK]), ("A", [Label.ALCOHOL]),
   ("F", [Label.FISH]), ("R", [Label.BEEF]), ("L", [Label.LAMB]),
   ("W", [Label.WILD_MEAT])]

/-- `StraubingMensaMenuParser._marks_to_labels`. -/
def marks_to_labels (marks : String) : Finset Label :=
  (pySplitChar ',' marks.data).foldl
    (fun acc m => acc ∪ ((pyGet mark_to_label (String.mk m)).getD []).toFinset) ∅

/-- `StraubingMensaMenuParser.parse_dish`; `none` models the uncaught
`IndexError`/`ValueError` a malformed row raises. -/
def straubingParseDish (row : List String) : Option Dish := do
  let title0 ← row[3]?
  let bracket := pyRFind '(' title0.data
  let labels : Finset Label :=
    if bracket ≠ -1 then
      parse_label straubingLabelSubclasses
        (String.mk ((pySliceFrom title0.data bracket).filter
          (fun c => ¬(c = '(' ∨ c = ')'))))
    else ∅
  let title :=
    if bracket ≠ -1 then String.mk (pyStrip (pySliceTo title0.data bracket)) else title0
  let p6 ← row[6]?
  let p7 ← row[7]?
  let p8 ← row[8]?
  let v6 ← parseFloatDot (p6.data.map (fun c => if c = ',' then '.' else c))
  let v7 ← parseFloatDot (p7.data.map (fun c => if c = ',' then '.' else c))
  let v8 ← parseFloatDot (p8.data.map (fun c => if c = ',' then '.' else c))
  let dish_type ← row[2]?
  let marks ← row[4]?
  pure (Dish.mk title ⟨flatPrice v6, flatPrice v7, flatPrice v8⟩
    (labels ∪ marks_to_labels marks) dish_type)

/-- The row loop of `StraubingMensaMenuParser.parse_menu`: consecutive
rows sharing a date accumulate into one menu. -/
def straubingParseMenuGo :
    List (List String) → Int → List Dish → List (Int × Menu) → Option (List (Int × Menu))
  | [], date, dishes, menus => some (pyInsert menus date (Menu.mk date dishes))
  | row :: rest, date, dishes, menus => do
    let cell ← row.head?
    let dish_date ← parse_date_str cell
    let st :=
      if date ≠ dish_date then
        (pyInsert menus date (Menu.mk date dishes), dish_date, ([] : List Dish))
      else (menus, date, dishes)
    let dish ← straubingParseDish row
    straubingParseMenuGo rest st.2.1 (st.2.2 ++ [dish]) st.1

/-- `StraubingMensaMenuParser.parse_menu`. -/
def straubingParseMenu (rows : List (List String)) : Option (List (Int × Menu)) := do
  let r0 ← rows.head?
  let c ← r0.head?
  let date ← parse_date_str c
  straubingParseMenuGo rows date [] []

/-- `rows[0][0]` parsed as a date, as the fetch loop does. -/
def firstRowDate (rows : List (List String)) : Option Int :=
  rows.head? >>= (fun r => r.head?) >>= parse_date_str

/-- The `while True` fetch loop of `StraubingMensaMenuParser.parse`,
embedded with explicit fuel: `none` is returned when the fuel runs out
(the Python loop is still running) or when an uncaught
`IndexError`/`ValueError` aborts the run; `some` is the loop's `return
menus`. -/
def straubingLoop (fetch : Int → Option String) (today : Int) :
    Nat → Int → List (Int × Menu) → Option (List (Int × Menu))
  | 0, _, _ => none
  | fuel + 1, calendar_week, menus =>
    match fetch calendar_week with
    | none => some menus
    | some content =>
      let rows := parse_csv content
      match firstRowDate rows with
      | none => none
      | some date =>
        if date < today - 7 then some menus
        else
          match straubingParseMenu rows with
          | none => none
          | some m => straubingLoop fetch today fuel (calendar_week + 1) (pyUpdate menus m)

/-- `StraubingMensaMenuParser.parse`: start at today's ISO calendar week
with an empty mapping. -/
def straubingParse (fetch : Int → Option String) (today : Int) (fuel : Nat) :
    Option (List (Int × Menu)) :=
  straubingLoop fetch today fuel (isocalendar today).2.1 []

/-- The fully parsed batch of calendar week `cw`: its first row's date
and its `parse_menu` result. -/
def batchParsed (fetch : Int → Option String) (cw : Int) :
    Option (Int × List (Int × Menu)) := do
  let content ← fetch cw
  let rows := parse_csv content
  let d ← firstRowDate rows
  let m ← straubingParseMenu rows
  pure (d, m)

/-- The menus contributed by calendar week `cw` (empty if it fails). -/
def batchMenus (fetch : Int → Option String) (cw : Int) : List (Int × Menu) :=
  match batchParsed fetch cw with
  | some dm => dm.2
  | none => []

/-- Week `cw` fetches and parses fine and its first date is not stale. -/
def batchOk (fetch : Int → Option String) (today cw : Int) : Bool :=
  match batchParsed fetch cw with
  | some dm => decide (¬dm.1 < today - 7)
  | none => false

/-- Week `cw` fetches and parses fine but its first date is stale
(before today minus 7 days). -/
def batchStale (fetch : Int → Option String) (today cw : Int) : Bool :=
  match batchParsed fetch cw with
  | some dm => decide (dm.1 < today - 7)
  | none => false

/-- The mapping accumulated from `k` consecutive weekly batches starting
at week `start`, in fetch order (`dict.update` per batch). -/
def collectedBatches (fetch : Int → Option String) :
    Int → Nat → List (Int × Menu) → List (Int × Menu)
  | _, 0, acc => acc
  | start, k + 1, acc =>
    collectedBatches fetch (start + 1) k (pyUpdate acc (batchMenus fetch start))

/-- A one-week oracle for the C7 witness: ISO week 10 of 2024 serves one
CSV batch; week 11's fetch fails. -/
def straubingWitnessFetch : Int → Option String := fun cw =>
  if cw = 10 then
    some "Datum;Tag;Art;Essen;Kennz;ZS;Stud;Bed;Gast\n04.03.2024;Mo;Gericht 1;Linsen;VG;;3,50;4,50;5,50"
  else none

/-! ## The FMI Bistro weekly PDF-text parser (`FMIBistroMenuParser`)

The PDF fetch and `pdftotext` conversion are external collaborators; the
parser's input is the converted text.  `Except.error ()` models the
`ParsingError` raised on a fifth priced line, which no code inside the
parser catches. -/

def pyIsAsciiAlpha (c : Char) : Bool :=
  ('A' ≤ c && c ≤ 'Z') || ('a' ≤ c && c ≤ 'z')

/-- The ignore filter of `FMIBistroMenuParser.__get_relevant_text`: a
case-insensitive full match of one alternative `\s*word` (only the last
alternative of the generated pattern carries a trailing `\s*`; the word
set literal is taken in source order, CPython's set iteration order being
unspecified and the claims not depending on it). -/
def fmiIgnoreLine (line : List Char) : Bool :=
  let r := (line.dropWhile pyIsSpaceChar).map pyLowerChar
  r = [] || r = "suppe".data || r = "meat".data || r = "&".data || r = "grill".data ||
    r = "vegan*".data || ("veggie".data.isPrefixOf r && (r.drop 6).all pyIsSpaceChar)

/-- `FMIBistroMenuParser.__get_relevant_text`: lines 4..-18 of the
converted text, ignore-filtered, each cut to `line[13:]`. -/
def fmiRelevantLines (text : List Char) : List (List Char) :=
  ((pySlice (pySplitChar '\n' text) 4 (-18)).filter (fun l => !fmiIgnoreLine l)).map
    (fun l => pySliceFrom l 13)

/-- `FMIBistroMenuParser.__extract_dish_title_part`: slice the estimated
49-wide weekday column (absorbing a rounding error of < 5 at the line
end) and take `re.findall(r"\S+(?:\s+\S+)*", ...)[0]`, which on a slice
is exactly its stripped text, absent when the slice is all whitespace. -/
def extract_dish_title_part (line : List Char) (weekday_index : Nat) : Option (List Char) :=
  let b : Int := (weekday_index : Int) * 49
  let e0 : Int := min (b + 49) (line.length : Int)
  let e : Int := if (line.length : Int) - e0 < 5 then (line.length : Int) else e0
  let piece := pyStrip (pySlice line b e)
  if piece.isEmpty then none else some piece

/-- First match of `\d+(?:,\d+)?`: the first maximal digit run,
optionally extended once by a comma and a further digit run. -/
def findFirstNumber : List Char → Option (List Char)
  | [] => none
  | c :: rest =>
    if isAsciiDigit c then
      let ds := (c :: rest).takeWhile isAsciiDigit
      let rest2 := (c :: rest).dropWhile isAsciiDigit
      match rest2 with
      | ',' :: d :: _ =>
        if isAsciiDigit d then
          some (ds ++ ',' :: (rest2.drop 1).takeWhile isAsciiDigit)
        else some ds
      | _ => some ds
    else findFirstNumber rest

/-- The `(?:,[A-Za-z]+)*` tail of the label pattern (fuel-bounded scan;
the fuel `l.length` always suffices). -/
def labelGroupsFuel : Nat → List Char → List Char
  | 0, _ => []
  | fuel + 1, l =>
    match l with
    | ',' :: c :: rest =>
      if pyIsAsciiAlpha c then
        ',' :: ((c :: rest).takeWhile pyIsAsciiAlpha
          ++ labelGroupsFuel fuel ((c :: rest).dropWhile pyIsAsciiAlpha))
      else []
    | _ => []

/-- First match of `[A-Za-z](?:,[A-Za-z]+)*`: one letter, then
comma-joined letter runs. -/
def findFirstLabelStr : List Char → Option (List Char)
  | [] => none
  | c :: rest =>
    if pyIsAsciiAlpha c then some (c :: labelGroupsFuel rest.length rest)
    else findFirstLabelStr rest

/-- `FMIBistroMenuParser.__get_label_str_and_price`: locate a price
token in a ±15 window around the estimated column end (`none` means no
dish that day) and a label token in a ±15 window around the column
begin (absent → `""`). -/
def get_label_str_and_price (column_index : Nat) (line : List Char) :
    Option (List Char × ℚ) :=
  let ecl : Int := (line.length : Int) / 5
  let b : Int := (column_index : Int) * ecl
  let e : Int := min (b + ecl) (line.length : Int)
  match findFirstNumber (pySlice line (e - 15) (min (e + 15) (line.length : Int))) with
  | none => none
  | some price_str =>
    let price := (parseFloatDot (price_str.map (fun c => if c = ',' then '.' else c))).getD 0
    let labels_str := (findFirstLabelStr (pySlice line (max (b - 15) 0) (b + 15))).getD []
    some (labels_str, price)

/-- `re.sub(r"\s+", " ", ...)`: collapse whitespace runs to one space. -/
def collapseSpaces : List Char → List Char
  | [] => []
  | [c] => if pyIsSpaceChar c then [' '] else [c]
  | c1 :: c2 :: rest =>
    if pyIsSpaceChar c1 ∧ pyIsSpaceChar c2 then collapseSpaces (c2 :: rest)
    else (if pyIsSpaceChar c1 then ' ' else c1) :: collapseSpaces (c2 :: rest)

/-- `" ".join(...)`. -/
def joinSpace : List (List Char) → List Char
  | [] => []
  | [p] => p
  | p :: rest => p ++ ' ' :: joinSpace rest

/-- `str(dish_type)` for the `DishType` iterator value after `k`
previous priced lines. -/
def dishTypeName : Nat → String
  | 0 => "DishType.SOUP"
  | 1 => "DishType.MEAT"
  | 2 => "DishType.VEGETARIAN"
  | _ => "DishType.VEGAN"

/-- The per-date line loop of `FMIBistroMenuParser.get_menus` (lines
432-457): non-price lines accumulate title parts; a price line consumes
the next `DishType` (a fifth one raises `ParsingError`, `Except.error`),
and a missing price token breaks out ("no menu for that day"). -/
def fmiDayGo (weekday_index : Nat) :
    List (List Char) → List Dish → List (List Char) → Nat → Except Unit (List Dish)
  | [], dishes, _, _ => .ok dishes
  | line :: rest, dishes, title_parts, k =>
    if ¬line.contains '€' then
      match extract_dish_title_part line weekday_index with
      | some part => fmiDayGo weekday_index rest dishes (title_parts ++ [part]) k
      | none => fmiDayGo weekday_index rest dishes title_parts k
    else if k ≥ 4 then .error ()
    else
      match get_label_str_and_price weekday_index line with
      | none => .ok dishes
      | some lp =>
        fmiDayGo weekday_index rest
          (dishes ++ [Dish.mk (String.mk (collapseSpaces (joinSpace title_parts)))
            ⟨flatPrice lp.2, flatPrice lp.2, flatPrice (lp.2 + 4/5)⟩
            (parse_label fmiLabelSubclasses (String.mk lp.1)) (dishTypeName k)])
          [] (k + 1)

/-- One date's pass over the relevant lines. -/
def fmiProcessDay (lines : List (List Char)) (weekday_index : Nat) : Except Unit (List Dish) :=
  fmiDayGo weekday_index lines [] [] 0

/-- The date loop of `FMIBistroMenuParser.get_menus`: the uncaught
`ParsingError` aborts the whole call. -/
def fmiGetMenusGo (lines : List (List Char)) :
    List Int → List (Int × Menu) → Except Unit (List (Int × Menu))
  | [], menus => .ok menus
  | date :: rest, menus =>
    match fmiProcessDay lines (pyWeekday date).toNat with
    | .error e => .error e
    | .ok dishes =>
      fmiGetMenusGo lines rest
        (if dishes.isEmpty then menus else pyInsert menus date (Menu.mk date dishes))

/-- `FMIBistroMenuParser.get_menus`. -/
def fmiGetMenus (text : List Char) (year calendar_week : Int) :
    Except Unit (List (Int × Menu)) :=
  fmiGetMenusGo (fmiRelevantLines text)
    (get_non_weekend_days_for_calendar_week year calendar_week) []

/-- A 75-column line with a price token in weekday column 0. -/
def fmiWitnessPricedLine : List Char := "ab 7,50 € ".data ++ List.replicate 65 ' '

/-- A line containing `€` but no price token in weekday column 0. -/
def fmiWitnessUnpricedLine : List Char := "xx € kein Preis".data

/-! ## The Mediziner Mensa single-page PDF parser (`MedizinerMensaMenuParser`)

Start page retrieval, PDF download and `pdftotext` are external
collaborators; `get_menus` receives the converted text.  The
`unicodedata.normalize("NFKC", ...)` call is modelled as the identity
(it is the identity on the relevant inputs).  Scanners implementing the
regex operations carry an explicit fuel, always called with a
sufficient value (the scanned text's length). -/

/-- The label character class
`([A-C]|[E-H]|[K-P]|[R-Z]|[1-9])` of `labels_regex`. -/
def isMedLabelChar (c : Char) : Bool :=
  ('A' ≤ c && c ≤ 'C') || ('E' ≤ c && c ≤ 'H') || ('K' ≤ c && c ≤ 'P') ||
    ('R' ≤ c && c ≤ 'Z') || ('1' ≤ c && c ≤ '9')

/-- The `(,([A-C]|...))*` tail of `labels_regex`: maximal run of comma +
label-character pairs, returning the consumed pairs and the remainder. -/
def medPairs : List Char → List Char × List Char
  | ',' :: x :: r =>
    if isMedLabelChar x then
      let p := medPairs r
      (',' :: x :: p.1, p.2)
    else ([], ',' :: x :: r)
  | l => ([], l)

/-- Try `labels_regex` at the current position (which must start with a
whitespace character): whitespace, label char, pairs, then a consumed
whitespace or end of string.  Returns `(match, rest)`. -/
def tryMedLabelAt : List Char → Option (List Char × List Char)
  | c :: l1 :: r =>
    if pyIsSpaceChar c ∧ isMedLabelChar l1 then
      let p := medPairs r
      match p.2 with
      | [] => some (c :: l1 :: p.1, [])
      | t :: rr => if pyIsSpaceChar t then some (c :: l1 :: p.1 ++ [t], rr) else none
    else none
  | _ => none

/-- Leftmost `labels_regex` match: `(prefix, match, rest)`. -/
def medFindLabel : List Char → Option (List Char × List Char × List Char)
  | [] => none
  | c :: rest =>
    match tryMedLabelAt (c :: rest) with
    | some m => some ([], m.1, m.2)
    | none =>
      match medFindLabel rest with
      | some pmr => some (c :: pmr.1, pmr.2.1, pmr.2.2)
      | none => none

/-- One `findall` + `re.sub(labels_regex, " ", ...)` pass: all
non-overlapping matches and the substituted string. -/
def medScan : Nat → List Char → List (List Char) × List Char
  | 0, l => ([], l)
  | fuel + 1, l =>
    match medFindLabel l with
    | none => ([], l)
    | some pmr =>
      let t := medScan fuel pmr.2.2
      (pmr.2.1 :: t.1, pmr.1 ++ ' ' :: t.2)

/-- The `while len(matches) > 0` loop of
`MedizinerMensaMenuParser.parse_dish`: union the labels of all matches,
substitute, repeat. -/
def medLabelLoop : Nat → List Char → Finset Label → Finset Label × List Char
  | 0, l, acc => (acc, l)
  | fuel + 1, l, acc =>
    let sc := medScan l.length l
    if sc.1.isEmpty then (acc, l)
    else
      medLabelLoop fuel sc.2
        (sc.1.foldl (fun a m => a ∪ parse_label medizinerLabelSubclasses (String.mk m)) acc)

/-- Python `str.replace(pat, rep)` (left-to-right, non-overlapping);
fuel-bounded, `pat` non-empty at every call site. -/
def replaceSub (pat rep : List Char) : Nat → List Char → List Char
  | 0, l => l
  | _ + 1, [] => []
  | fuel + 1, c :: rest =>
    if pat.isPrefixOf (c :: rest) then
      rep ++ replaceSub pat rep fuel ((c :: rest).drop pat.length)
    else c :: replaceSub pat rep fuel rest

/-- Try `price_regex` `(\d+(,(\d){2})\s?€)` at a digit position:
maximal digit run, comma, exactly two digits, optional single
whitespace, euro sign.  Returns `(match, rest)`. -/
def tryMedPriceAt (l : List Char) : Option (List Char × List Char) :=
  let run := l.takeWhile isAsciiDigit
  if run.isEmpty then none
  else
    match l.dropWhile isAsciiDigit with
    | ',' :: d1 :: d2 :: after =>
      if isAsciiDigit d1 ∧ isAsciiDigit d2 then
        match after with
        | '€' :: r => some (run ++ ',' :: d1 :: d2 :: ['€'], r)
        | t :: '€' :: r =>
          if pyIsSpaceChar t then some (run ++ ',' :: d1 :: d2 :: t :: ['€'], r) else none
        | _ => none
      else none
    | _ => none

/-- Leftmost `price_regex` match: `(prefix, match, rest)`. -/
def medFindPrice : List Char → Option (List Char × List Char × List Char)
  | [] => none
  | c :: rest =>
    match tryMedPriceAt (c :: rest) with
    | some m => some ([], m.1, m.2)
    | none =>
      match medFindPrice rest with
      | some pmr => some (c :: pmr.1, pmr.2.1, pmr.2.2)
      | none => none

/-- All `price_regex` matches and the string with them removed
(`re.sub(price_regex, "", ...)`). -/
def medPriceScan : Nat → List Char → List (List Char) × List Char
  | 0, l => ([], l)
  | fuel + 1, l =>
    match medFindPrice l with
    | none => ([], l)
    | some pmr =>
      let t := medPriceScan fuel pmr.2.2
      (pmr.2.1 :: t.1, pmr.1 ++ t.2)

/-- Modelled from the spec: `entities.Prices` built from a single price
(`Prices(Price(x))`), one price class supplied by the source; the claims
do not depend on how the other two classes are derived from it. -/
def pricesOfSingle (p : Price) : Prices := { students := p, staff := p, guests := p }

/-- The value of a price match:
`float(match.replace("€", "").replace(",", ".").strip())`. -/
def medPriceValue (m : List Char) : ℚ :=
  (parseFloatDot (pyStrip ((m.filter (fun c => c ≠ '€')).map
    (fun c => if c = ',' then '.' else c)))).getD 0

/-- `MedizinerMensaMenuParser.parse_dish`. -/
def medizinerParseDish (dish_str0 : List Char) : Dish :=
  let ll := medLabelLoop dish_str0.length dish_str0 ∅
  let s1 := replaceSub " , ".data ", ".data ll.2.length (pyStrip (collapseSpaces ll.2))
  let ps := medPriceScan s1.length s1
  let dish_price :=
    match ps.1.getLast? with
    | some m => pricesOfSingle (flatPrice (medPriceValue m))
    | none => ({} : Prices)
  Dish.mk (String.mk ps.2) dish_price ll.1 "Tagesgericht"

/-- `re.split(r"\s{2,}", line)` (used for the dish-types line). -/
def splitMultiSpace : Nat → List Char → List Char → List (List Char)
  | 0, acc, l => [acc.reverse ++ l]
  | fuel + 1, acc, l =>
    match l with
    | [] => [acc.reverse]
    | c :: rest =>
      if pyIsSpaceChar c && (match rest.head? with | some d => pyIsSpaceChar d | none => false) then
        acc.reverse :: splitMultiSpace fuel [] (rest.dropWhile pyIsSpaceChar)
      else splitMultiSpace fuel (c :: acc) rest

/-- The line preceding the first `***` line (empty when there is none),
from which the dish types are read. -/
def medizinerDishTypesLine : List (List Char) → Option (List Char) → List Char
  | [], _ => []
  | line :: rest, lastNonEmpty =>
    if pyContains "***".data line then
      match lastNonEmpty with
      | some l => l
      | none => []
    else
      medizinerDishTypesLine rest (if line.isEmpty then lastNonEmpty else some line)

/-- Index of the last line containing `***`. -/
def lastStarIdx (lines : List (List Char)) : Option Nat :=
  (lines.foldl
    (fun (st : Nat × Option Nat) line =>
      (st.1 + 1, if pyContains "***".data line then some st.1 else st.2))
    (0, none)).2

/-- `"\n".join(...)`. -/
def joinNl : List (List Char) → List Char
  | [] => []
  | [p] => p
  | p :: rest => p ++ '\n' :: joinNl rest

/-- Python `str.splitlines(True)` for `\n`-separated text. -/
def splitLinesKeep : List Char → List (List Char) :=
  go []
where
  go : List Char → List Char → List (List Char)
  | acc, [] => if acc.isEmpty then [] else [acc.reverse]
  | acc, c :: rest =>
    if c = '\n' then (acc.reverse ++ ['\n']) :: go [] rest
    else go (c :: acc) rest

def medWeekdayNames : List (List Char) :=
  ["Montag".data, "Dienstag".data, "Mittwoch".data, "Donnerstag".data,
   "Freitag".data, "Samstag".data, "Sonntag".data]

/-- Exactly `n` leading digits; returns the remainder. -/
def takeDigitsExactly (n : Nat) (l : List Char) : Option (List Char) :=
  if (l.take n).length = n ∧ (l.take n).all isAsciiDigit then some (l.drop n) else none

/-- One arbitrary character (regex `.`, which excludes newline). -/
def takeAnyNotNl : List Char → Option (List Char)
  | c :: rest => if c ≠ '\n' then some rest else none
  | [] => none

/-- `\d{1,2}.\d{1,2}.\d{4}` with the regex backtracking order of the
two bounded quantifiers. -/
def tryDateAt (l : List Char) : Option (List Char) :=
  (attempt 2 2 l) <|> (attempt 2 1 l) <|> (attempt 1 2 l) <|> (attempt 1 1 l)
where
  attempt (a b : Nat) (l : List Char) : Option (List Char) := do
    let r1 ← takeDigitsExactly a l
    let r2 ← takeAnyNotNl r1
    let r3 ← takeDigitsExactly b r2
    let r4 ← takeAnyNotNl r3
    takeDigitsExactly 4 r4

/-- The day delimiter
`(Montag|...|Sonntag),\s\d{1,2}.\d{1,2}.\d{4}` tried at the current
position: returns the captured weekday name and the text after the
match. -/
def tryDayDelimAt (l : List Char) : Option (List Char × List Char) :=
  match medWeekdayNames.find? (fun n => n.isPrefixOf l) with
  | none => none
  | some name =>
    match l.drop name.length with
    | ',' :: w :: rest2 =>
      if pyIsSpaceChar w then (tryDateAt rest2).map (fun r => (name, r)) else none
    | _ => none

/-- `re.split` on the day delimiter: because the pattern has a capture
group, the output interleaves segments with the captured weekday
names. -/
def medSplitDays : Nat → List Char → List Char → List (List Char)
  | 0, acc, l => [acc.reverse ++ l]
  | fuel + 1, acc, l =>
    match l with
    | [] => [acc.reverse]
    | c :: rest =>
      match tryDayDelimAt (c :: rest) with
      | some nr => acc.reverse :: nr.1 :: medSplitDays fuel [] nr.2
      | none => medSplitDays fuel (c :: acc) rest

/-- The `days_list` of `MedizinerMensaMenuParser.get_menus`: cut the text
below the first `Montag` line and above the last `***` line, join,
remove `*`, strip, split on the day delimiters, and drop empty segments
and the captured weekday names. -/
def medizinerDaysList (text : List Char) : List (List Char) :=
  let lines := pySplitChar '\n' text
  let lines1 := lines.dropWhile (fun l => !pyContains "Montag".data l)
  let lines2 := lines1.take ((lastStarIdx lines1).getD lines1.length)
  let body := pyStrip ((joinNl lines2).filter (fun c => c ≠ '*'))
  (medSplitDays body.length [] body).filter
    (fun d => !(d.isEmpty || medWeekdayNames.contains d))

/-- `re.split(r"(\n{2,}|(?<!mit)\n(?=[A-Z]))", mains)`: the capture
group keeps the delimiters in the output. -/
def medMainsSplit : Nat → List Char → List Char → List (List Char)
  | 0, acc, l => [acc.reverse ++ l]
  | fuel + 1, acc, l =>
    match l with
    | [] => [acc.reverse]
    | '\n' :: rest =>
      if (match rest.head? with | some d => decide (d = '\n') | none => false) then
        acc.reverse :: ('\n' :: rest.takeWhile (fun c => c = '\n'))
          :: medMainsSplit fuel [] (rest.dropWhile (fun c => c = '\n'))
      else
        if (match rest.head? with | some d => 'A' ≤ d && d ≤ 'Z' | none => false)
            && !decide (acc.take 3 = "tim".data) then
          acc.reverse :: ['\n'] :: medMainsSplit fuel [] rest
        else medMainsSplit fuel ('\n' :: acc) rest
    | c :: rest => medMainsSplit fuel (c :: acc) rest

/-- The per-day dish construction of `get_menus` (lines 676-711): soup
from the first 36 columns, mains from columns 40-100, split on
blank-line / new-capitalized-line boundaries, with the `Extraessen`
dish-type switch and the `""`/`"Feiertag"` drops. -/
def medizinerDayDishes (dish_types : List (List Char)) (day : List Char) : List Dish :=
  let day_lines := splitLinesKeep day
  let soup_str0 := day_lines.foldl
    (fun acc line => acc ++ pyStrip (pySlice line 0 36) ++ ['\n']) []
  let mains_str := day_lines.foldl
    (fun acc line => acc ++ pyStrip (pySlice line 40 100) ++ ['\n']) []
  let soup_str := (pyStrip (replaceSub "-\n".data [] soup_str0.length soup_str0)).map
    (fun c => if c = '\n' then ' ' else c)
  let soup0 := medizinerParseDish soup_str
  let soup := { soup0 with
    dish_type := match dish_types.head? with | some dt => String.mk dt | none => "Suppe" }
  let dishes0 := if soup.name ≠ "" ∧ soup.name ≠ "Feiertag" then [soup] else []
  let dish_type0 : String := match dish_types[1]? with | some dt => String.mk dt | none => ""
  let parts := medMainsSplit mains_str.length [] mains_str
  (parts.foldl
    (fun (st : List Dish × String) part =>
      if pyContains "Extraessen".data part then (st.1, "Extraessen")
      else
        let ds := (pyStrip part).map (fun c => if c = '\n' then ' ' else c)
        let dish0 := medizinerParseDish ds
        let dish1 := { dish0 with name := String.mk (pyStrip dish0.name.data) }
        if dish1.name ≠ "" ∧ dish1.name ≠ "Feiertag" then
          (st.1 ++ [if st.2 ≠ "" then { dish1 with dish_type := st.2 } else dish1], st.2)
        else (st.1, st.2))
    (dishes0, dish_type0)).1

/-- `MedizinerMensaMenuParser.get_menus`: all-or-nothing at week
granularity — any day split other than exactly 7 segments returns
`None`; otherwise the seven menus (Monday..Sunday of the given ISO
week) are built in weekday order. -/
def medizinerGetMenus (text : List Char) (year week_number : Int) :
    Option (List (Int × Menu)) :=
  let lines := pySplitChar '\n' text
  let dtl := medizinerDishTypesLine lines none
  let dish_types := (splitMultiSpace dtl.length [] dtl).filter (fun dt => !dt.isEmpty)
  let mkMenu := fun (pos : Int) (seg : List Char) =>
    Menu.remove_duplicates
      (Menu.mk (get_date year week_number pos) (medizinerDayDishes dish_types seg))
  match medizinerDaysList text with
  | [d0, d1, d2, d3, d4, d5, d6] =>
    some (pyInsert (pyInsert (pyInsert (pyInsert (pyInsert (pyInsert (pyInsert []
      (get_date year week_number 1) (mkMenu 1 d0))
      (get_date year week_number 2) (mkMenu 2 d1))
      (get_date year week_number 3) (mkMenu 3 d2))
      (get_date year week_number 4) (mkMenu 4 d3))
      (get_date year week_number 5) (mkMenu 5 d4))
      (get_date year week_number 6) (mkMenu 6 d5))
      (get_date year week_number 7) (mkMenu 7 d6))
  | _ => none

/-- Seven day blocks delimited by weekday-name/date headers, between a
`Montag` line and a trailing `***` line. -/
def medizinerWitnessText : List Char :=
  ("Suppe   Gericht\n***\nMontag, 4.3.2024\nA\nDienstag, 5.3.2024\nB\n" ++
   "Mittwoch, 6.3.2024\nC\nDonnerstag, 7.3.2024\nD\nFreitag, 8.3.2024\nE\n" ++
   "Samstag, 9.3.2024\nF\nSonntag, 10.3.2024\nG\n***\n").data

/-! ## Theorems -/

/-! ### Arithmetic lemmas about the date model -/

/-- Evaluation of `daysBeforeYear` on a year presented in the
400/100/4/1 mixed radix of the Gregorian cycle, together with a lower
bound for the following year. -/
theorem daysBeforeYear_eval (a b c d : Int) (hb : 0 ≤ b) (hb3 : b ≤ 3)
    (hc : 0 ≤ c) (hc24 : c ≤ 24) (hd : 0 ≤ d) (hd3 : d ≤ 3) :
    daysBeforeYear (400 * a + 100 * b + 4 * c + d + 1)
      = 146097 * a + 36524 * b + 1461 * c + 365 * d ∧
    146097 * a + 36524 * b + 1461 * c + 365 * d + 365
      ≤ daysBeforeYear (400 * a + 100 * b + 4 * c + d + 1 + 1) := by
  unfold daysBeforeYear
  constructor
  · have h1 : (400 * a + 100 * b + 4 * c + d + 1 - 1) / 4 = 100 * a + 25 * b + c := by omega
    have h2 : (400 * a + 100 * b + 4 * c + d + 1 - 1) / 100 = 4 * a + b := by omega
    have h3 : (400 * a + 100 * b + 4 * c + d + 1 - 1) / 400 = a := by omega
    omega
  · have h1 : (400 * a + 100 * b + 4 * c + d + 1 + 1 - 1) / 4
        = 100 * a + 25 * b + c + (if d = 3 then 1 else 0) := by
      split <;> omega
    have h2 : (400 * a + 100 * b + 4 * c + d + 1 + 1 - 1) / 100
        = 4 * a + b + (if c = 24 ∧ d = 3 then 1 else 0) := by
      split <;> omega
    have h3 : (400 * a + 100 * b + 4 * c + d + 1 + 1 - 1) / 400
        = a + (if b = 3 ∧ c = 24 ∧ d = 3 then 1 else 0) := by
      split <;> omega
    rw [h1, h2, h3]
    split <;> split <;> split <;> omega

theorem yearOfOrdinal_eq (rd : Int) :
    yearOfOrdinal rd =
      if (rd - 1) % 146097 % 36524 % 1461 / 365 = 4 ∨ (rd - 1) % 146097 / 36524 = 4 then
        (rd - 1) / 146097 * 400 + (rd - 1) % 146097 / 36524 * 100
          + (rd - 1) % 146097 % 36524 / 1461 * 4 + (rd - 1) % 146097 % 36524 % 1461 / 365
      else
        (rd - 1) / 146097 * 400 + (rd - 1) % 146097 / 36524 * 100
          + (rd - 1) % 146097 % 36524 / 1461 * 4 + (rd - 1) % 146097 % 36524 % 1461 / 365 + 1 := by
  rfl

/-- The extracted year really brackets the ordinal:
`daysBeforeYear (yearOfOrdinal rd) < rd ≤ daysBeforeYear (yearOfOrdinal rd + 1)`. -/
theorem yearOfOrdinal_bracket (rd : Int) :
    daysBeforeYear (yearOfOrdinal rd) < rd ∧ rd ≤ daysBeforeYear (yearOfOrdinal rd + 1) := by
  rw [yearOfOrdinal_eq]
  set a := (rd - 1) / 146097 with ha
  set s := (rd - 1) % 146097 with hs
  set b := s / 36524 with hb
  set t := s % 36524 with ht
  set c := t / 1461 with hc
  set u := t % 1461 with hu
  set d := u / 365 with hd
  have hsb : 0 ≤ s ∧ s < 146097 := by omega
  have hdec : rd - 1 = 146097 * a + s := by omega
  have htb : 0 ≤ t ∧ t < 36524 := by omega
  have hbb : 0 ≤ b ∧ b ≤ 4 := by omega
  have hsdec : s = 36524 * b + t := by omega
  have hub : 0 ≤ u ∧ u < 1461 := by omega
  have hcb : 0 ≤ c ∧ c ≤ 24 := by omega
  have htdec : t = 1461 * c + u := by omega
  have hdb : 0 ≤ d ∧ d ≤ 4 := by omega
  have hudec : u = 365 * d + u % 365 ∧ 0 ≤ u % 365 ∧ u % 365 < 365 := by omega
  by_cases hif : d = 4 ∨ b = 4
  · rw [if_pos hif]
    rcases hif with hd4 | hb4
    · -- `d = 4` forces `u = 1460`, hence `c ≤ 23`; the date is Dec 31 of a leap year.
      have hu1460 : u = 1460 := by omega
      have hc23 : c ≤ 23 := by omega
      have hb3 : b ≤ 3 := by omega
      have h1 := (daysBeforeYear_eval a b c 3 (by omega) (by omega) (by omega) (by omega)
        (by omega) (by omega)).1
      have h2 := (daysBeforeYear_eval a b (c + 1) 0 (by omega) (by omega) (by omega) (by omega)
        (by omega) (by omega)).1
      have e1 : a * 400 + b * 100 + c * 4 + d = 400 * a + 100 * b + 4 * c + 3 + 1 := by omega
      have e2 : a * 400 + b * 100 + c * 4 + d + 1 = 400 * a + 100 * b + 4 * (c + 1) + 0 + 1 := by
        omega
      rw [e2, e1, h1, h2]
      omega
    · -- `b = 4` forces `s = 146096`: Dec 31 of year `400*(a+1)`.
      have hs146096 : s = 146096 := by omega
      have ht0 : t = 0 := by omega
      have hc0 : c = 0 := by omega
      have hu0 : u = 0 := by omega
      have hd0 : d = 0 := by omega
      have h1 := (daysBeforeYear_eval a 3 24 3 (by omega) (by omega) (by omega) (by omega)
        (by omega) (by omega)).1
      have h2 := (daysBeforeYear_eval (a + 1) 0 0 0 (by omega) (by omega) (by omega) (by omega)
        (by omega) (by omega)).1
      have e1 : a * 400 + b * 100 + c * 4 + d = 400 * a + 100 * 3 + 4 * 24 + 3 + 1 := by omega
      have e2 : a * 400 + b * 100 + c * 4 + d + 1 = 400 * (a + 1) + 100 * 0 + 4 * 0 + 0 + 1 := by
        omega
      rw [e2, e1, h1, h2]
      omega
  · rw [if_neg hif]
    have hb3 : b ≤ 3 := by omega
    have hd3 : d ≤ 3 := by omega
    have h1 := daysBeforeYear_eval a b c d (by omega) (by omega) (by omega) (by omega)
      (by omega) (by omega)
    have e1 : a * 400 + b * 100 + c * 4 + d + 1 = 400 * a + 100 * b + 4 * c + d + 1 := by omega
    rw [e1]
    omega

/-- `daysBeforeYear` grows by at least 365 per year. -/
theorem daysBeforeYear_succ (y : Int) :
    daysBeforeYear y + 365 ≤ daysBeforeYear (y + 1) ∧
    daysBeforeYear (y + 1) ≤ daysBeforeYear y + 366 := by
  unfold daysBeforeYear
  omega

/-- Monotone gap bound for `daysBeforeYear`. -/
theorem daysBeforeYear_mono {u v : Int} (h : u ≤ v) :
    daysBeforeYear u + 365 * (v - u) ≤ daysBeforeYear v := by
  have key : ∀ n : Nat, ∀ w : Int, daysBeforeYear w + 365 * n ≤ daysBeforeYear (w + n) := by
    intro n
    induction n with
    | zero => intro w; simp
    | succ k ih =>
      intro w
      have h1 := ih w
      have h2 := (daysBeforeYear_succ (w + k)).1
      have e : w + (k : Int) + 1 = w + ((k : Nat) + 1 : Nat) := by push_cast; ring
      rw [e] at h2
      push_cast
      push_cast at h1 h2
      omega
  have h2 := key (v - u).toNat u
  have e : u + ((v - u).toNat : Int) = v := by omega
  rw [e] at h2
  omega

/-- `week1Monday y` is a Monday and sits within 3 days of Jan 1 of `y`. -/
theorem week1Monday_props (y : Int) :
    (week1Monday y - 1) % 7 = 0 ∧
    daysBeforeYear y - 2 ≤ week1Monday y ∧ week1Monday y ≤ daysBeforeYear y + 4 := by
  simp only [week1Monday]
  omega

/-- Consecutive `week1Monday`s are 52 or 53 whole weeks apart. -/
theorem week1Monday_gap (y : Int) :
    week1Monday (y + 1) - week1Monday y = 364 ∨ week1Monday (y + 1) - week1Monday y = 371 := by
  have hdel := daysBeforeYear_succ y
  have h1 := week1Monday_props y
  have h2 := week1Monday_props (y + 1)
  omega

theorem numIsoWeeks_eval (y : Int) :
    numIsoWeeks y = 52 ∨ numIsoWeeks y = 53 := by
  have h := week1Monday_gap y
  unfold numIsoWeeks
  omega

theorem week1Monday_add_weeks (y : Int) :
    week1Monday (y + 1) = week1Monday y + 7 * numIsoWeeks y := by
  have h := week1Monday_gap y
  unfold numIsoWeeks
  omega

/-- The Python `date.weekday()` of `get_date y w d` is `d - 1`. -/
theorem pyWeekday_get_date (y w d : Int) (hd1 : 1 ≤ d) (hd7 : d ≤ 7) :
    pyWeekday (get_date y w d) = d - 1 := by
  have h := week1Monday_props y
  unfold pyWeekday get_date
  omega

/-- `isocalendar` evaluated when the Gregorian year of `rd` equals the ISO year. -/
theorem isocalendar_case_mid (rd y w d : Int) (hcase : yearOfOrdinal rd = y)
    (hw1 : 1 ≤ w) (hrdub : rd < week1Monday (y + 1))
    (hweek : (rd - week1Monday y) / 7 = w - 1) (hday : (rd - week1Monday y) % 7 = d - 1) :
    isocalendar rd = (y, w, d) := by
  simp only [isocalendar, hcase]
  split_ifs with h1 h2
  · exfalso; omega
  · exfalso; omega
  · refine Prod.ext rfl (Prod.ext ?_ ?_) <;> simp <;> omega

/-- `isocalendar` evaluated when `rd` falls in late December of Gregorian
year `y - 1` but already in ISO week 1 of `y`. -/
theorem isocalendar_case_prev (rd y w d : Int) (hcase : yearOfOrdinal rd = y - 1)
    (hga : week1Monday y - week1Monday (y - 1) = 364 ∨
      week1Monday y - week1Monday (y - 1) = 371)
    (hrdge : week1Monday y ≤ rd)
    (hw1 : w = 1) (hdaym : (rd - week1Monday (y - 1)) % 7 = d - 1) :
    isocalendar rd = (y, w, d) := by
  simp only [isocalendar, hcase]
  rw [show y - 1 + 1 = y by ring]
  split_ifs with h1 h2
  · exfalso; omega
  · refine Prod.ext rfl (Prod.ext ?_ ?_) <;> simp <;> omega
  · -- the `elif` guard is in fact satisfied here, so this branch is impossible
    exfalso; omega

/-- `isocalendar` evaluated when `rd` falls in early January of Gregorian
year `y + 1` but still in the last ISO week of `y`. -/
theorem isocalendar_case_next (rd y w d : Int) (hcase : yearOfOrdinal rd = y + 1)
    (hrdub : rd < week1Monday (y + 1))
    (hweek : (rd - week1Monday y) / 7 = w - 1) (hday : (rd - week1Monday y) % 7 = d - 1) :
    isocalendar rd = (y, w, d) := by
  simp only [isocalendar, hcase]
  rw [show y + 1 - 1 = y by ring]
  split_ifs with h1 h2
  · refine Prod.ext rfl (Prod.ext ?_ ?_) <;> simp <;> omega
  · exfalso; omega
  · exfalso; omega

/-- C3.  For every valid ISO `(year, week)` pair and `d = 1..7`,
`MenuParser.get_date year week d` yields consecutive dates (each one day
after its predecessor for that week) whose ISO-calendar recomputation
(`date.isocalendar()`) is exactly `(year, week, d)`; in particular
`get_date 2019 2 1` is the date 2019-01-07. -/
theorem get_date_isocalendar (y w d : Int)
    (hw1 : 1 ≤ w) (hw2 : w ≤ numIsoWeeks y) (hd1 : 1 ≤ d) (hd7 : d ≤ 7) :
    isocalendar (get_date y w d) = (y, w, d) ∧
    get_date y w d = get_date y w 1 + (d - 1) ∧
    get_date 2019 2 1 = toOrdinal 2019 1 7 := by
  refine ⟨?_, by unfold get_date; omega, by decide⟩
  set rd := get_date y w d with hrd
  have hprops := week1Monday_props y
  have hprops1 := week1Monday_props (y + 1)
  have hpropsm := week1Monday_props (y - 1)
  have hgap : week1Monday (y - 1 + 1) - week1Monday (y - 1) = 364 ∨
      week1Monday (y - 1 + 1) - week1Monday (y - 1) = 371 := week1Monday_gap (y - 1)
  rw [show y - 1 + 1 = y by ring] at hgap
  have hadd := week1Monday_add_weeks y
  have hniso := numIsoWeeks_eval y
  have hrdlb : week1Monday y ≤ rd := by unfold get_date at hrd; omega
  have hrdub : rd < week1Monday (y + 1) := by unfold get_date at hrd; omega
  have hbr := yearOfOrdinal_bracket rd
  have hmono_y1 : daysBeforeYear y + 365 * ((y + 1) - y) ≤ daysBeforeYear (y + 1) :=
    daysBeforeYear_mono (by omega)
  have hub : yearOfOrdinal rd ≤ y + 1 := by
    by_contra hlt
    push_neg at hlt
    have hm := daysBeforeYear_mono (show y + 2 ≤ yearOfOrdinal rd by omega)
    have hm2 := daysBeforeYear_mono (show y + 1 ≤ y + 2 by omega)
    omega
  have hlb : y - 1 ≤ yearOfOrdinal rd := by
    by_contra hlt
    push_neg at hlt
    have hm := daysBeforeYear_mono (show yearOfOrdinal rd + 1 ≤ y - 1 by omega)
    have hm2 := daysBeforeYear_mono (show y - 1 ≤ y by omega)
    omega
  have hcases : yearOfOrdinal rd = y - 1 ∨ yearOfOrdinal rd = y ∨ yearOfOrdinal rd = y + 1 := by
    omega
  have hdecomp : rd - week1Monday y = 7 * (w - 1) + (d - 1) := by
    unfold get_date at hrd
    omega
  have hweek : (rd - week1Monday y) / 7 = w - 1 := by omega
  have hday : (rd - week1Monday y) % 7 = d - 1 := by omega
  rcases hcases with hcase | hcase | hcase
  · -- Gregorian year is `y - 1`: `rd` is one of the last days of December,
    -- already inside ISO week 1 of `y`, so `w = 1`.
    rw [hcase] at hbr
    rw [show y - 1 + 1 = y by ring] at hbr
    have hw1' : w = 1 := by omega
    have hdaym : (rd - week1Monday (y - 1)) % 7 = d - 1 := by omega
    exact isocalendar_case_prev rd y w d hcase hgap hrdlb hw1' hdaym
  · exact isocalendar_case_mid rd y w d hcase hw1 hrdub hweek hday
  · exact isocalendar_case_next rd y w d hcase hrdub hweek hday

/-- Witness for C3: the ISO week date (2019, 2, 1) round-trips and equals
2019-01-07. -/
theorem get_date_isocalendar_witness :
    isocalendar (get_date 2019 2 1) = (2019, 2, 1) ∧
    get_date 2019 2 1 = get_date 2019 2 1 + (1 - 1) ∧
    get_date 2019 2 1 = toOrdinal 2019 1 7 :=
  get_date_isocalendar 2019 2 1 (by decide) (by decide) (by decide) (by decide)

/-! ### Facts about stripping -/

theorem dropWhile_head_false (p : Char → Bool) (l : List Char) :
    l.dropWhile p = [] ∨ ∃ c cs, l.dropWhile p = c :: cs ∧ p c = false := by
  induction l with
  | nil => left; rfl
  | cons c cs ih =>
    by_cases hc : p c
    · simpa [List.dropWhile, hc] using ih
    · right
      exact ⟨c, cs, by simp [List.dropWhile, hc], by simpa using hc⟩

theorem dropWhile_append_singleton (p : Char → Bool) (c : Char) (hc : p c = false)
    (xs : List Char) :
    (xs ++ [c]).dropWhile p = xs.dropWhile p ++ [c] := by
  induction xs with
  | nil => simp [List.dropWhile, hc]
  | cons x xs ih =>
    by_cases hx : p x
    · simp [List.dropWhile, hx, ih]
    · simp [List.dropWhile, hx]

/-- A stripped string is never whitespace-only: the guard
`not stripped.isspace()` in `MenuParser._parse_label` is always true. -/
theorem pyIsSpace_pyStrip (l : List Char) : pyIsSpace (pyStrip l) = false := by
  unfold pyStrip pyIsSpace
  rcases dropWhile_head_false pyIsSpaceChar l with h | ⟨c, cs, h, hc⟩
  · simp [h]
  · rw [h]
    have hrev : (c :: cs).reverse = cs.reverse ++ [c] := by simp
    rw [hrev, dropWhile_append_singleton pyIsSpaceChar c hc]
    simp [List.all_append, hc]

/-- Filtering out empty tokens does not change the union fold when the
blank token is not a key of the table. -/
theorem foldl_union_skip_empty (table : List (String × Finset Label))
    (h0 : labelTableGet table "" = ∅) (l : List (List Char)) (acc : Finset Label) :
    (l.filter (fun t => !t.isEmpty)).foldl
      (fun acc t => acc ∪ labelTableGet table (String.mk t)) acc
    = l.foldl (fun acc t => acc ∪ labelTableGet table (String.mk t)) acc := by
  induction l generalizing acc with
  | nil => rfl
  | cons t rest ih =>
    by_cases ht : t.isEmpty
    · have hnil : t = [] := by
        cases h : t
        · rfl
        · rw [h] at ht; simp [List.isEmpty] at ht
      subst hnil
      simp only [List.filter_cons, List.isEmpty_nil, Bool.not_true, Bool.false_eq_true,
        if_false, List.foldl_cons]
      rw [ih, show (String.mk ([] : List Char)) = "" from rfl, h0, Finset.union_empty]
    · simp only [List.filter_cons, ht, Bool.not_false, if_true, List.foldl_cons]
      exact ih _

/-- The two token folds agree whenever the blank token is not a key of
the table (true of all per-source tables). -/
theorem parse_label_fold_eq (table : List (String × Finset Label))
    (h0 : labelTableGet table "" = ∅) (ts : List (List Char)) (acc : Finset Label) :
    ts.foldl
      (fun acc value =>
        if pyIsSpace (pyStrip value) then acc
        else acc ∪ labelTableGet table (String.mk (pyStrip value)))
      acc
    = ((ts.map pyStrip).filter (fun t => !t.isEmpty)).foldl
      (fun acc t => acc ∪ labelTableGet table (String.mk t)) acc := by
  have h1 : ts.foldl
      (fun acc value =>
        if pyIsSpace (pyStrip value) then acc
        else acc ∪ labelTableGet table (String.mk (pyStrip value)))
      acc
      = ts.foldl (fun acc value => acc ∪ labelTableGet table (String.mk (pyStrip value))) acc :=
    List.foldl_ext _ _ acc (fun a x _ => by simp [pyIsSpace_pyStrip])
  rw [h1, foldl_union_skip_empty table h0, List.foldl_map]

/-- C4.  For every raw marker string and every per-source code table, the
label resolver `MenuParser._parse_label` — a composition of total
operations, hence exception-free — returns exactly the supertype closure
of the union of the code-table entries of the trimmed comma-separated
tokens: blank/whitespace-only tokens and tokens absent from the table
contribute nothing. -/
theorem parse_label_resolves_as_specified (table : List (String × Finset Label))
    (htab : table ∈ [studentenwerkLabelSubclasses, fmiLabelSubclasses,
      medizinerLabelSubclasses, straubingLabelSubclasses]) (s : String) :
    parse_label table s = add_supertype_labels (resolveSpec table s) := by
  have h0 : labelTableGet table "" = ∅ := by
    simp only [List.mem_cons, List.mem_singleton, List.not_mem_nil, or_false] at htab
    rcases htab with h | h | h | h <;> subst h <;> decide
  simp only [parse_label, resolveSpec]
  exact congrArg add_supertype_labels (parse_label_fold_eq table h0 _ _)

/-- Witness for C4: a concrete marker string over the Studentenwerk table
with a known code, a two-label code, an unknown code and a blank token. -/
theorem parse_label_resolves_witness :
    parse_label studentenwerkLabelSubclasses " v , Mi, XX,, "
      = add_supertype_labels (resolveSpec studentenwerkLabelSubclasses " v , Mi, XX,, ") ∧
    parse_label studentenwerkLabelSubclasses " v , Mi, XX,, "
      = {Label.VEGAN, Label.MILK, Label.LACTOSE, Label.VEGETARIAN} := by
  constructor
  · exact parse_label_resolves_as_specified studentenwerkLabelSubclasses (by simp) _
  · decide

/-- C5 counterexample: for a non-side dish of category `"Pizza"` with
meatless flag `"0"`, no fish label and no sausage term, the code resolves
the PIZZA_MEAT tier, not the MEAT tier the claimed check order yields:
the claim does not hold for every non-side-dish. -/
theorem get_price_claim_counterexample :
    (selfServiceClassification ("Pizza", "", "", "", "0") "Salami").1
      = SelfServiceBasePriceType.PIZZA_MEAT ∧
    claimedBaseType ("Pizza", "", "", "", "0") "Salami" = SelfServiceBasePriceType.MEAT ∧
    (selfServiceClassification ("Pizza", "", "", "", "0") "Salami").1
      ≠ claimedBaseType ("Pizza", "", "", "", "0") "Salami" := by
  refine ⟨rfl, ?_, ?_⟩ <;> decide

/-- C5 (amended).  At non-bypass canteens, every non-side dish whose
category is neither `"Studitopf"` nor `"Pizza"` is classified exactly by
the claimed check order — meatless flag, then fish label, then sausage
substring, else meat — and the price is the self-service combination of
that tier; in particular a non-vegetarian `"Currywurst"` with no fish
label resolves to the SAUSAGE tier. -/
theorem get_price_classification (canteen : Canteen)
    (hc : ¬(canteen = .MENSA_WEIHENSTEPHAN ∨ canteen = .MENSA_LOTHSTR))
    (dish : String × String × String × String × String) (dish_name : String)
    (hsoup : dish.1 ≠ "Studitopf") (hpizza : dish.1 ≠ "Pizza") :
    (selfServiceClassification dish dish_name).1 = claimedBaseType dish dish_name ∧
    get_price canteen dish dish_name
      = get_self_service_prices (claimedBaseType dish dish_name)
          (selfServiceClassification dish dish_name).2 ∧
    (selfServiceClassification ("Tagesgericht 1", "", "", "", "0") "Currywurst").1
      = SelfServiceBasePriceType.SAUSAGE := by
  have h1 : (selfServiceClassification dish dish_name).1 = claimedBaseType dish dish_name := by
    unfold selfServiceClassification claimedBaseType
    rcases dish with ⟨d0, d1, d2, d3, d4⟩
    simp only [hpizza, if_false, hsoup, ne_eq, not_false_iff, true_and]
    by_cases h4 : d4 = "0" <;> simp [h4]
  refine ⟨h1, ?_, by decide⟩
  unfold get_price
  rw [if_neg hc, ← h1]

/-- Witness for C5's amended theorem: the Currywurst input itself, at
Mensa Garching, category `"Tagesgericht 1"`. -/
theorem get_price_classification_witness :
    (selfServiceClassification ("Tagesgericht 1", "", "", "", "0") "Currywurst").1
      = claimedBaseType ("Tagesgericht 1", "", "", "", "0") "Currywurst" ∧
    get_price Canteen.MENSA_GARCHING ("Tagesgericht 1", "", "", "", "0") "Currywurst"
      = get_self_service_prices
          (claimedBaseType ("Tagesgericht 1", "", "", "", "0") "Currywurst")
          (selfServiceClassification ("Tagesgericht 1", "", "", "", "0") "Currywurst").2 ∧
    (selfServiceClassification ("Tagesgericht 1", "", "", "", "0") "Currywurst").1
      = SelfServiceBasePriceType.SAUSAGE :=
  get_price_classification Canteen.MENSA_GARCHING (by decide)
    ("Tagesgericht 1", "", "", "", "0") "Currywurst" (by decide) (by decide)

/-- C1.  For every requested canteen the dispatcher returns a parser
whose declared support set contains that canteen — indeed the unique
such parser, so the unspecified `set` iteration order is immaterial —
and whenever no declared strategy supports the canteen, `main` terminates
with the hard error `"Canteen parser not found"` instead of returning a
parser. -/
theorem dispatcher_selects_supporting_strategy :
    ∀ c : Canteen,
      (∀ p, get_menu_parsing_strategy c = some p → c ∈ p.canteens) ∧
      (∀ p, p ∈ parserRegistry → c ∈ p.canteens → get_menu_parsing_strategy c = some p) ∧
      (get_menu_parsing_strategy c = none →
        mainDispatch c = .error "Canteen parser not found") := by
  decide

/-- Witness for C1 (the inner conjuncts carry hypotheses): dispatch of
`FMI_BISTRO` yields the FMI parser, which supports it. -/
theorem dispatcher_selects_supporting_strategy_witness :
    get_menu_parsing_strategy Canteen.FMI_BISTRO = some ParserClass.FMIBistroMenuParser ∧
    Canteen.FMI_BISTRO ∈ ParserClass.FMIBistroMenuParser.canteens := by
  constructor
  · exact (dispatcher_selects_supporting_strategy Canteen.FMI_BISTRO).2.1
      ParserClass.FMIBistroMenuParser (by decide) (by decide)
  · exact (dispatcher_selects_supporting_strategy Canteen.FMI_BISTRO).1
      ParserClass.FMIBistroMenuParser (by decide)

/-- C2 (the code violates the claim).  A page with three day blocks whose
second block raises while parsing: the returned mapping contains only the
first day — the third day's menu, although its block parses fine, is
dropped, because the `except` wraps the whole loop.  This contradicts the
claim (and the code's own log message "Skipping current date"), under
which day 3 would still be present. -/
theorem studentenwerk_parse_drops_days_after_exception :
    studentenwerkParseLoop
      [Except.ok (some ⟨100, []⟩), Except.error "lxml error", Except.ok (some ⟨102, []⟩)] []
      = [(100, ⟨100, []⟩)] ∧
    (102 : Int) ∉ pyKeys (studentenwerkParseLoop
      [Except.ok (some ⟨100, []⟩), Except.error "lxml error", Except.ok (some ⟨102, []⟩)] []) := by
  constructor
  · rfl
  · decide

/-- C8.  For every parsed date-to-menu mapping, the state handed to the
translation step (and to every later serialization step) is
`sortMenusStep menus`, in which the dish list of every menu is sorted by
dish name. -/
theorem dishes_sorted_before_translation (menus : List (Int × Menu))
    (translateStep : List (Int × Menu) → List (Int × Menu)) :
    mainPostParse menus translateStep = translateStep (sortMenusStep menus) ∧
    ∀ kv ∈ sortMenusStep menus,
      List.Pairwise (fun a b : Dish => a.name ≤ b.name) kv.2.dishes := by
  refine ⟨rfl, ?_⟩
  intro kv hkv
  simp only [sortMenusStep, List.mem_map] at hkv
  obtain ⟨kv', _, rfl⟩ := hkv
  haveI : IsTotal Dish (fun a b : Dish => a.name ≤ b.name) :=
    ⟨fun a b => le_total a.name b.name⟩
  haveI : IsTrans Dish (fun a b : Dish => a.name ≤ b.name) :=
    ⟨fun _ _ _ h1 h2 => le_trans h1 h2⟩
  exact List.sorted_insertionSort _ _

/-- Witness for C8: a two-dish menu arrives at the translation step with
its dishes in name order. -/
theorem dishes_sorted_before_translation_witness :
    mainPostParse
        [(100, ⟨100, [⟨"b", {}, ∅, "t"⟩, ⟨"a", {}, ∅, "t"⟩]⟩)] id
      = id (sortMenusStep [(100, ⟨100, [⟨"b", {}, ∅, "t"⟩, ⟨"a", {}, ∅, "t"⟩]⟩)]) ∧
    ∀ kv ∈ sortMenusStep [(100, ⟨100, [⟨"b", {}, ∅, "t"⟩, ⟨"a", {}, ∅, "t"⟩]⟩)],
      List.Pairwise (fun a b : Dish => a.name ≤ b.name) kv.2.dishes :=
  dishes_sorted_before_translation
    [(100, ⟨100, [⟨"b", {}, ∅, "t"⟩, ⟨"a", {}, ∅, "t"⟩]⟩)] id

/-! ### Cache lemmas -/

theorem pyGet_nil {β : Type} (k : String) : pyGet ([] : List (String × β)) k = none := rfl

theorem pyGet_cons {β : Type} (k0 : String) (v0 : β) (rest : List (String × β)) (k' : String) :
    pyGet ((k0, v0) :: rest) k' = if k0 = k' then some v0 else pyGet rest k' := by
  by_cases h : k0 = k' <;> simp [pyGet, List.find?_cons, h]

theorem pyGet_pyInsert {β : Type} (c : List (String × β)) (k k' : String) (v : β) :
    pyGet (pyInsert c k v) k' = if k' = k then some v else pyGet c k' := by
  induction c with
  | nil =>
    show pyGet [(k, v)] k' = _
    rw [pyGet_cons, pyGet_nil]
    by_cases h : k' = k
    · rw [if_pos h.symm, if_pos h]
    · rw [if_neg (fun hh => h hh.symm), if_neg h]
  | cons kv rest ih =>
    obtain ⟨k0, v0⟩ := kv
    by_cases h0 : k0 = k
    · simp only [pyInsert]
      rw [if_pos h0]
      subst h0
      rw [pyGet_cons, pyGet_cons]
      by_cases a : k0 = k'
      · rw [if_pos a, if_pos a.symm]
      · rw [if_neg a, if_neg (fun hh => a hh.symm), if_neg a]
    · simp only [pyInsert]
      rw [if_neg h0, pyGet_cons, pyGet_cons, ih]
      by_cases a : k0 = k'
      · subst a
        simp [h0]
      · rw [if_neg a, if_neg a]

theorem pyHasKey_isSome {β : Type} (c : List (String × β)) (k : String) :
    pyHasKey c k = true ↔ (pyGet c k).isSome := by
  induction c with
  | nil => simp [pyHasKey, pyGet]
  | cons kv rest ih =>
    obtain ⟨k0, v0⟩ := kv
    rw [pyGet_cons]
    by_cases h : k0 = k <;> simp [pyHasKey, h] at ih ⊢
    simpa using ih

theorem pyHasKey_pyInsert {β : Type} (c : List (String × β)) (k k' : String) (v : β)
    (h : pyHasKey c k') : pyHasKey (pyInsert c k v) k' := by
  rw [pyHasKey_isSome] at h ⊢
  rw [pyGet_pyInsert]
  split
  · rfl
  · exact h

theorem prefetch_preserves (api : String → String) (ts : List String)
    (c : List (String × String)) (n : String) (v : String) (h : pyGet c n = some v) :
    pyGet (Translator.prefetch api c ts) n = some v := by
  induction ts generalizing c with
  | nil => exact h
  | cons t rest ih =>
    simp only [Translator.prefetch, List.foldl_cons]
    by_cases ht : pyHasKey c t
    · simp only [ht, if_true]
      exact ih c h
    · simp only [ht, Bool.false_eq_true, if_false]
      refine ih _ ?_
      rw [pyGet_pyInsert]
      split
      · rename_i heq
        exfalso
        rw [heq] at h
        rw [(pyHasKey_isSome c t).not] at ht
        exact ht (by rw [h]; rfl)
      · exact h

theorem prefetch_has (api : String → String) (ts : List String)
    (c : List (String × String)) (n : String) (h : n ∈ ts ∨ pyHasKey c n) :
    pyHasKey (Translator.prefetch api c ts) n := by
  induction ts generalizing c with
  | nil =>
    rcases h with h | h
    · cases h
    · exact h
  | cons t rest ih =>
    simp only [Translator.prefetch, List.foldl_cons]
    by_cases ht : pyHasKey c t
    · simp only [ht, if_true]
      refine ih _ ?_
      rcases h with h | h
      · rcases List.mem_cons.mp h with rfl | h2
        · exact Or.inr ht
        · exact Or.inl h2
      · exact Or.inr h
    · simp only [ht, Bool.false_eq_true, if_false]
      refine ih _ ?_
      rcases h with h | h
      · rcases List.mem_cons.mp h with rfl | h2
        · refine Or.inr ?_
          rw [pyHasKey_isSome, pyGet_pyInsert]
          simp
        · exact Or.inl h2
      · exact Or.inr (pyHasKey_pyInsert _ _ _ _ h)

/-- On a cache hit, `translate` returns the cached value and leaves the
cache untouched. -/
theorem translate_hit (api : String → String) (c : List (String × String))
    (t v : String) (h : pyGet c t = some v) :
    Translator.translate api c t = (v, c) := by
  unfold Translator.translate
  rw [h]

/-- When every dish name is already cached, the dish fold rewrites each
name to its cached translation and leaves the cache untouched. -/
theorem translate_dishes_fold (api : String → String) (cache : List (String × String))
    (dishes : List DishJson) (acc : List DishJson)
    (h : ∀ d ∈ dishes, (pyGet cache d.name).isSome) :
    dishes.foldl (translateDishStep api) (acc, cache)
      = (acc ++ dishes.map
          (fun d => { d with name := (pyGet cache d.name).getD d.name }), cache) := by
  induction dishes generalizing acc with
  | nil => simp
  | cons d rest ih =>
    obtain ⟨v, hv⟩ := Option.isSome_iff_exists.mp (h d (List.mem_cons_self d rest))
    simp only [List.foldl_cons, List.map_cons]
    have hstep : translateDishStep api (acc, cache) d
        = (acc ++ [{ d with name := v }], cache) := by
      simp only [translateDishStep, translate_hit api cache d.name v hv]
    rw [hstep, ih _ (fun d' hd' => h d' (List.mem_cons_of_mem _ hd'))]
    simp [hv]

/-- When every dish name of every day is cached, the day fold rewrites
only the names and returns the cache unchanged. -/
theorem translate_days_fold (api : String → String) (cache : List (String × String))
    (days : List DayJson) (acc : List DayJson)
    (h : ∀ day ∈ days, ∀ d ∈ day.dishes, (pyGet cache d.name).isSome) :
    days.foldl (translateDayStep api) (acc, cache)
      = (acc ++ days.map (fun day =>
          { day with dishes := day.dishes.map (fun d =>
            { d with name := (pyGet cache d.name).getD d.name }) }), cache) := by
  induction days generalizing acc with
  | nil => simp
  | cons day rest ih =>
    simp only [List.foldl_cons, List.map_cons]
    have hstep : translateDayStep api (acc, cache) day
        = (acc ++ [{ day with dishes := day.dishes.map (fun d =>
            { d with name := (pyGet cache d.name).getD d.name }) }], cache) := by
      simp only [translateDayStep,
        translate_dishes_fold api cache day.dishes []
          (h day (List.mem_cons_self day rest))]
      simp
    rw [hstep, ih _ (fun day' hd' => h day' (List.mem_cons_of_mem _ hd'))]
    simp

/-- C9.  For every canonical-shape week document, translation rewrites
only each dish's `name`: the week's `year`, `week` and `version`, every
day's `date`, and every dish's `prices`, `labels` and `category` are
unchanged (day and dish counts included, via the element-wise
correspondence), and a name already present in the cache is replaced by
exactly the cached translation keyed on the exact untranslated string. -/
theorem translate_days_frame (api : String → String) (data : WeekJson)
    (cache : List (String × String)) :
    (translate_days api data cache).1.year = data.year ∧
    (translate_days api data cache).1.week = data.week ∧
    (translate_days api data cache).1.version = data.version ∧
    List.Forall₂
      (fun day day' : DayJson =>
        day'.date = day.date ∧
        List.Forall₂
          (fun dish dish' : DishJson =>
            dish'.prices = dish.prices ∧ dish'.labels = dish.labels ∧
            dish'.category = dish.category ∧
            ∀ v, pyGet cache dish.name = some v → dish'.name = v)
          day.dishes day'.dishes)
      data.days (translate_days api data cache).1.days := by
  have hnames : ∀ day ∈ data.days, ∀ d ∈ day.dishes,
      (pyGet (Translator.prefetch api cache
        (data.days.flatMap (fun day => day.dishes.map (·.name)))) d.name).isSome := by
    intro day hday d hd
    rw [← pyHasKey_isSome]
    refine prefetch_has api _ cache d.name (Or.inl ?_)
    simp only [List.mem_flatMap, List.mem_map]
    exact ⟨day, hday, d, hd, rfl⟩
  simp only [translate_days, translate_days_fold api _ data.days [] hnames,
    List.nil_append]
  refine ⟨trivial, trivial, trivial, ?_⟩
  rw [List.forall₂_map_right_iff, List.forall₂_same]
  intro day _
  refine ⟨rfl, ?_⟩
  rw [List.forall₂_map_right_iff, List.forall₂_same]
  intro dish _
  refine ⟨rfl, rfl, rfl, ?_⟩
  intro v hv
  have := prefetch_preserves api
    (data.days.flatMap (fun day => day.dishes.map (·.name))) cache dish.name v hv
  simp [this]

/-- Witness for C9 (the cached-name clause carries a hypothesis inside
the correspondence): a one-day, one-dish week whose dish name is already
cached is rewritten to exactly the cached translation, other fields
untouched. -/
theorem translate_days_frame_witness :
    (translate_days (fun s => s) ⟨2024, 10, some "2.1",
        [⟨"2024-03-04", [⟨"Kartoffelsuppe", {}, ["99"], "Suppe"⟩]⟩]⟩
        [("Kartoffelsuppe", "Potato soup")]).1.version = some "2.1" ∧
    ((translate_days (fun s => s) ⟨2024, 10, some "2.1",
        [⟨"2024-03-04", [⟨"Kartoffelsuppe", {}, ["99"], "Suppe"⟩]⟩]⟩
        [("Kartoffelsuppe", "Potato soup")]).1.days.map
          (fun day => day.dishes.map (·.name))) = [["Potato soup"]] := by
  constructor
  · exact (translate_days_frame (fun s => s) ⟨2024, 10, some "2.1",
      [⟨"2024-03-04", [⟨"Kartoffelsuppe", {}, ["99"], "Suppe"⟩]⟩]⟩
      [("Kartoffelsuppe", "Potato soup")]).2.2.1
  · decide

theorem straubingLoop_spec (fetch : Int → Option String) (today : Int) (k : Nat) :
    ∀ (fuel : Nat) (start : Int) (acc : List (Int × Menu)),
    (∀ j : Nat, j < k → batchOk fetch today (start + j)) →
    (fetch (start + k) = none ∨ batchStale fetch today (start + k)) →
    k < fuel →
    straubingLoop fetch today fuel start acc = some (collectedBatches fetch start k acc) := by
  induction k with
  | zero =>
    intro fuel start acc _ hstop hfuel
    obtain ⟨f, rfl⟩ : ∃ f, fuel = f + 1 := ⟨fuel - 1, by omega⟩
    simp only [Nat.cast_zero, add_zero] at hstop
    rcases hstop with hnone | hstale
    · simp [straubingLoop, hnone, collectedBatches]
    · unfold batchStale batchParsed at hstale
      cases hc : fetch start with
      | none => rw [hc] at hstale; simp at hstale
      | some content =>
        rw [hc] at hstale
        simp only [Option.bind_eq_bind, Option.some_bind] at hstale
        cases hd : firstRowDate (parse_csv content) with
        | none => rw [hd] at hstale; simp at hstale
        | some d =>
          rw [hd] at hstale
          cases hm : straubingParseMenu (parse_csv content) with
          | none => rw [hm] at hstale; simp at hstale
          | some m =>
            rw [hm] at hstale
            simp only [Option.some_bind] at hstale
            have hlt : d < today - 7 := by simpa using hstale
            simp [straubingLoop, hc, hd, hlt, collectedBatches]
  | succ k ih =>
    intro fuel start acc hok hstop hfuel
    obtain ⟨f, rfl⟩ : ∃ f, fuel = f + 1 := ⟨fuel - 1, by omega⟩
    have h0 := hok 0 (Nat.succ_pos k)
    unfold batchOk batchParsed at h0
    simp only [Nat.cast_zero, add_zero] at h0
    cases hc : fetch start with
    | none => rw [hc] at h0; simp at h0
    | some content =>
      rw [hc] at h0
      simp only [Option.bind_eq_bind, Option.some_bind] at h0
      cases hd : firstRowDate (parse_csv content) with
      | none => rw [hd] at h0; simp at h0
      | some d =>
        rw [hd] at h0
        cases hm : straubingParseMenu (parse_csv content) with
        | none => rw [hm] at h0; simp at h0
        | some m =>
          rw [hm] at h0
          simp only [Option.some_bind] at h0
          have hge : ¬d < today - 7 := by simpa using h0
          have hbm : batchMenus fetch start = m := by
            unfold batchMenus batchParsed
            rw [hc]
            simp only [Option.bind_eq_bind, Option.some_bind]
            rw [hd, hm]
            rfl
          show straubingLoop fetch today (f + 1) start acc = _
          simp only [straubingLoop, hc, hd, hge, if_false, hm]
          rw [show collectedBatches fetch start (k + 1) acc
              = collectedBatches fetch (start + 1) k (pyUpdate acc (batchMenus fetch start))
              from rfl, hbm]
          refine ih f (start + 1) (pyUpdate acc m) ?_ ?_ (by omega)
          · intro j hj
            have := hok (j + 1) (by omega)
            have harg : start + ((j : Int) + 1) = start + 1 + (j : Int) := by ring
            rw [show ((j + 1 : Nat) : Int) = (j : Int) + 1 from by push_cast; ring,
              harg] at this
            exact this
          · have harg : start + ((k : Int) + 1) = start + 1 + (k : Int) := by ring
            rw [show ((k + 1 : Nat) : Int) = (k : Int) + 1 from by push_cast; ring,
              harg] at hstop
            exact hstop

/-- C7.  The CSV fetch loop of `StraubingMensaMenuParser.parse` advances
the calendar-week counter from today's ISO week until the first week `k`
at which either the fetch fails or the fetched batch's first row date
precedes today minus 7 days; there it stops immediately, returning
exactly the mapping accumulated (`dict.update` per batch, in fetch
order) from the `k` batches fetched before the stopping one. -/
theorem straubing_parse_stops (fetch : Int → Option String) (today : Int)
    (fuel : Nat) (k : Nat)
    (hok : ∀ j : Nat, j < k → batchOk fetch today ((isocalendar today).2.1 + j))
    (hstop : fetch ((isocalendar today).2.1 + k) = none ∨
      batchStale fetch today ((isocalendar today).2.1 + k))
    (hfuel : k < fuel) :
    straubingParse fetch today fuel
      = some (collectedBatches fetch (isocalendar today).2.1 k []) :=
  straubingLoop_spec fetch today k fuel (isocalendar today).2.1 [] hok hstop hfuel

/-- Witness for C7: with today = 2024-03-04 (ISO week 10), the loop
collects week 10's batch and stops at week 11's failed fetch. -/
theorem straubing_parse_stops_witness :
    straubingParse straubingWitnessFetch (get_date 2024 10 1) 2
      = some (collectedBatches straubingWitnessFetch
          (isocalendar (get_date 2024 10 1)).2.1 1 []) :=
  straubing_parse_stops straubingWitnessFetch (get_date 2024 10 1) 2 1
    (fun j hj => by
      have hj0 : j = 0 := by omega
      subst hj0
      decide)
    (Or.inl (by decide))
    (by omega)

/-- Characterization of the day loop's error: starting with `k` priced
lines consumed, it raises exactly when `5 - k` priced lines remain and
the first `4 - k` of them all carry a price for the weekday column. -/
theorem fmiDayGo_error_iff (i : Nat) (lines : List (List Char)) :
    ∀ (ds : List Dish) (tp : List (List Char)) (k : Nat), k ≤ 4 →
    (fmiDayGo i lines ds tp k = .error () ↔
      5 - k ≤ (lines.filter (fun l => l.contains '€')).length ∧
      ∀ l ∈ (lines.filter (fun l => l.contains '€')).take (4 - k),
        get_label_str_and_price i l ≠ none) := by
  induction lines with
  | nil =>
    intro ds tp k hk
    simp only [fmiDayGo, List.filter_nil, List.length_nil, List.take_nil]
    exact iff_of_false (fun h => Except.noConfusion h) (fun h => by omega)
  | cons line rest ih =>
    intro ds tp k hk
    by_cases he : line.contains '€' = true
    · have hfe : (line :: rest).filter (fun l => l.contains '€')
          = line :: rest.filter (fun l => l.contains '€') := by
        simp only [List.filter_cons, he, if_true]
      simp only [fmiDayGo]
      rw [if_neg (fun hc => hc he), hfe]
      by_cases hk4 : k ≥ 4
      · rw [if_pos hk4]
        refine iff_of_true rfl ⟨?_, ?_⟩
        · simp only [List.length_cons]
          omega
        · have h0 : 4 - k = 0 := by omega
          rw [h0, List.take_zero]
          intro l hl
          cases hl
      · rw [if_neg hk4]
        have h4k : 4 - k = (3 - k) + 1 := by omega
        cases hp : get_label_str_and_price i line with
        | none =>
          refine iff_of_false (fun h => Except.noConfusion h) ?_
          rintro ⟨h1, h2⟩
          refine h2 line ?_ hp
          rw [h4k, List.take_succ_cons]
          exact List.mem_cons_self _ _
        | some lp =>
          rw [ih _ _ (k + 1) (by omega)]
          constructor
          · rintro ⟨h1, h2⟩
            refine ⟨by simp only [List.length_cons]; omega, ?_⟩
            rw [h4k, List.take_succ_cons]
            intro l hl
            rcases List.mem_cons.mp hl with rfl | hl2
            · rw [hp]
              exact fun h => Option.noConfusion h
            · refine h2 l ?_
              have h3k : 3 - k = 4 - (k + 1) := by omega
              rw [← h3k]
              exact hl2
          · rintro ⟨h1, h2⟩
            refine ⟨by simp only [List.length_cons] at h1; omega, ?_⟩
            intro l hl
            refine h2 l ?_
            rw [h4k, List.take_succ_cons]
            refine List.mem_cons_of_mem _ ?_
            have h3k : 4 - (k + 1) = 3 - k := by omega
            rw [← h3k]
            exact hl
    · have hfe : (line :: rest).filter (fun l => l.contains '€')
          = rest.filter (fun l => l.contains '€') := by
        simp only [List.filter_cons, he, Bool.false_eq_true, if_false]
      simp only [fmiDayGo]
      rw [if_pos (by simpa using he), hfe]
      cases hx : extract_dish_title_part line i with
      | some part => exact ih ds (tp ++ [part]) k hk
      | none => exact ih ds tp k hk

/-- If the day's first priced line has no price token for the weekday
column, the loop breaks with the dishes collected so far. -/
theorem fmiDayGo_break (i : Nat) (lines : List (List Char)) :
    ∀ (ds : List Dish) (tp : List (List Char)) (k : Nat), k < 4 →
    ∀ l0, (lines.filter (fun l => l.contains '€')).head? = some l0 →
    get_label_str_and_price i l0 = none →
    fmiDayGo i lines ds tp k = .ok ds := by
  induction lines with
  | nil => intro ds tp k _ l0 h0; cases h0
  | cons line rest ih =>
    intro ds tp k hk l0 h0 hnone
    by_cases he : line.contains '€' = true
    · have hfe : (line :: rest).filter (fun l => l.contains '€')
          = line :: rest.filter (fun l => l.contains '€') := by
        simp only [List.filter_cons, he, if_true]
      rw [hfe] at h0
      simp only [List.head?_cons, Option.some.injEq] at h0
      subst h0
      simp only [fmiDayGo]
      rw [if_neg (fun hc => hc he), if_neg (by omega), hnone]
    · have hfe : (line :: rest).filter (fun l => l.contains '€')
          = rest.filter (fun l => l.contains '€') := by
        simp only [List.filter_cons, he, Bool.false_eq_true, if_false]
      rw [hfe] at h0
      simp only [fmiDayGo]
      rw [if_pos (by simpa using he)]
      cases hx : extract_dish_title_part line i with
      | some part => exact ih ds (tp ++ [part]) k hk l0 h0 hnone
      | none => exact ih ds tp k hk l0 h0 hnone

/-- The date loop errors exactly when some processed date's pass errors. -/
theorem fmiGetMenusGo_error_iff (lines : List (List Char)) :
    ∀ (days : List Int) (menus : List (Int × Menu)),
    (fmiGetMenusGo lines days menus = .error () ↔
      ∃ d ∈ days, fmiProcessDay lines (pyWeekday d).toNat = .error ()) := by
  intro days
  induction days with
  | nil =>
    intro menus
    exact iff_of_false (fun h => Except.noConfusion h) (by simp)
  | cons d rest ih =>
    intro menus
    simp only [fmiGetMenusGo]
    cases hd : fmiProcessDay lines (pyWeekday d).toNat with
    | error e =>
      refine iff_of_true rfl ⟨d, List.mem_cons_self _ _, ?_⟩
      rw [hd]
    | ok dishes =>
      rw [ih]
      constructor
      · rintro ⟨d2, hd2, herr⟩
        exact ⟨d2, List.mem_cons_of_mem _ hd2, herr⟩
      · rintro ⟨d2, hd2, herr⟩
        rcases List.mem_cons.mp hd2 with rfl | hd3
        · rw [hd] at herr
          cases herr
        · exact ⟨d2, hd3, herr⟩

/-- C6.  In `FMIBistroMenuParser.get_menus`, at most four priced lines
(lines containing `€`) are accepted per weekday pass: the pass raises the
uncaught `ParsingError` exactly when a fifth priced line is reached,
i.e. when at least five priced lines are present and the first four all
yield a price token for that weekday's column; a priced line with no
price token for the column instead ends the day without error, with only
the dishes collected before it; and `get_menus` as a whole errors (the
run aborts) precisely when some processed weekday's pass errors. -/
theorem fmi_priced_line_rules :
    (∀ (lines : List (List Char)) (i : Nat),
      fmiProcessDay lines i = .error () ↔
        5 ≤ (lines.filter (fun l => l.contains '€')).length ∧
        ∀ l ∈ (lines.filter (fun l => l.contains '€')).take 4,
          get_label_str_and_price i l ≠ none) ∧
    (∀ (lines : List (List Char)) (i : Nat) (l0 : List Char),
      (lines.filter (fun l => l.contains '€')).head? = some l0 →
      get_label_str_and_price i l0 = none →
      fmiProcessDay lines i = .ok []) ∧
    (∀ (text : List Char) (y w : Int),
      fmiGetMenus text y w = .error () ↔
        ∃ d ∈ get_non_weekend_days_for_calendar_week y w,
          fmiProcessDay (fmiRelevantLines text) (pyWeekday d).toNat = .error ()) := by
  refine ⟨fun lines i => ?_, fun lines i l0 h0 hnone => ?_, fun text y w => ?_⟩
  · exact fmiDayGo_error_iff i lines [] [] 0 (by omega)
  · exact fmiDayGo_break i lines [] [] 0 (by omega) l0 h0 hnone
  · exact fmiGetMenusGo_error_iff (fmiRelevantLines text)
      (get_non_weekend_days_for_calendar_week y w) []

/-- Witness for C6: five fully priced lines raise the hard error; a day
whose first priced line has no price token ends without error and
without dishes. -/
theorem fmi_priced_line_rules_witness :
    fmiProcessDay (List.replicate 5 fmiWitnessPricedLine) 0 = .error () ∧
    fmiProcessDay [fmiWitnessUnpricedLine] 0 = .ok [] := by
  constructor
  · exact (fmi_priced_line_rules.1 (List.replicate 5 fmiWitnessPricedLine) 0).mpr (by decide)
  · exact fmi_priced_line_rules.2.1 [fmiWitnessUnpricedLine] 0 fmiWitnessUnpricedLine
      (by decide) (by decide)

/-- **C10.** `MedizinerMensaMenuParser.get_menus` is all-or-nothing at
week granularity: whenever splitting the relevant text on the
weekday-name-plus-date delimiters yields any number of day segments
other than exactly 7, it returns `none` for the whole week; with
exactly 7 segments it returns a mapping whose keys are precisely the
seven dates (Monday..Sunday) of the requested ISO week. -/
theorem mediziner_all_or_nothing (text : List Char) (year week : Int) :
    ((medizinerDaysList text).length ≠ 7 → medizinerGetMenus text year week = none) ∧
    ((medizinerDaysList text).length = 7 →
      ∃ menus, medizinerGetMenus text year week = some menus ∧
        pyKeys menus =
          [get_date year week 1, get_date year week 2, get_date year week 3,
           get_date year week 4, get_date year week 5, get_date year week 6,
           get_date year week 7]) := by
  have h12 : get_date year week 1 ≠ get_date year week 2 := by unfold get_date; omega
  have h13 : get_date year week 1 ≠ get_date year week 3 := by unfold get_date; omega
  have h14 : get_date year week 1 ≠ get_date year week 4 := by unfold get_date; omega
  have h15 : get_date year week 1 ≠ get_date year week 5 := by unfold get_date; omega
  have h16 : get_date year week 1 ≠ get_date year week 6 := by unfold get_date; omega
  have h17 : get_date year week 1 ≠ get_date year week 7 := by unfold get_date; omega
  have h23 : get_date year week 2 ≠ get_date year week 3 := by unfold get_date; omega
  have h24 : get_date year week 2 ≠ get_date year week 4 := by unfold get_date; omega
  have h25 : get_date year week 2 ≠ get_date year week 5 := by unfold get_date; omega
  have h26 : get_date year week 2 ≠ get_date year week 6 := by unfold get_date; omega
  have h27 : get_date year week 2 ≠ get_date year week 7 := by unfold get_date; omega
  have h34 : get_date year week 3 ≠ get_date year week 4 := by unfold get_date; omega
  have h35 : get_date year week 3 ≠ get_date year week 5 := by unfold get_date; omega
  have h36 : get_date year week 3 ≠ get_date year week 6 := by unfold get_date; omega
  have h37 : get_date year week 3 ≠ get_date year week 7 := by unfold get_date; omega
  have h45 : get_date year week 4 ≠ get_date year week 5 := by unfold get_date; omega
  have h46 : get_date year week 4 ≠ get_date year week 6 := by unfold get_date; omega
  have h47 : get_date year week 4 ≠ get_date year week 7 := by unfold get_date; omega
  have h56 : get_date year week 5 ≠ get_date year week 6 := by unfold get_date; omega
  have h57 : get_date year week 5 ≠ get_date year week 7 := by unfold get_date; omega
  have h67 : get_date year week 6 ≠ get_date year week 7 := by unfold get_date; omega
  constructor
  · intro hlen
    simp only [medizinerGetMenus]
    rcases hl : medizinerDaysList text with
      _ | ⟨a0, _ | ⟨a1, _ | ⟨a2, _ | ⟨a3, _ | ⟨a4, _ | ⟨a5, _ | ⟨a6, _ | ⟨a7, t⟩⟩⟩⟩⟩⟩⟩⟩ <;>
      first
        | rfl
        | (exfalso; rw [hl] at hlen; simp at hlen)
  · intro hlen
    rcases hl : medizinerDaysList text with
      _ | ⟨a0, _ | ⟨a1, _ | ⟨a2, _ | ⟨a3, _ | ⟨a4, _ | ⟨a5, _ | ⟨a6, _ | ⟨a7, t⟩⟩⟩⟩⟩⟩⟩⟩ <;>
      rw [hl] at hlen <;>
      simp only [List.length_cons, List.length_nil] at hlen <;>
      try omega
    simp only [medizinerGetMenus, hl]
    refine ⟨_, rfl, ?_⟩
    simp [pyKeys, pyInsert, h12, h13, h14, h15, h16, h17, h23, h24, h25, h26, h27, h34, h35, h36, h37, h45, h46, h47, h56, h57, h67]

set_option maxRecDepth 100000 in
/-- Witness for C10: the empty text yields no days (hence `none`), and a
seven-day text yields a mapping keyed by the seven dates of 2024
ISO-week 10. -/
theorem mediziner_all_or_nothing_witness :
    medizinerGetMenus [] 2024 10 = none ∧
    ∃ menus, medizinerGetMenus medizinerWitnessText 2024 10 = some menus ∧
      pyKeys menus =
        [get_date 2024 10 1, get_date 2024 10 2, get_date 2024 10 3,
         get_date 2024 10 4, get_date 2024 10 5, get_date 2024 10 6,
         get_date 2024 10 7] :=
  ⟨(mediziner_all_or_nothing [] 2024 10).1 (by decide),
   (mediziner_all_or_nothing medizinerWitnessText 2024 10).2 (by decide)⟩

end EatApi








